import Mathlib

/-! The OpenTSDB storage adapter of opentsdb-promql-frontend (`opentsdb.go`).

A shallow embedding of the translation layer between label-matcher queries and
the OpenTSDB HTTP query dialect, followed by theorems about it.

Conventions of the embedding

* Go `int` / `int64` values are `Int`; the only arithmetic that can leave the
  64-bit range (`time *= 1000` in `datapoints.samples`) is wrapped explicitly
  by `wrapInt64`.
* A Go `float64` is carried around but never computed with; it is represented
  by its 64-bit pattern (`float64.bits`).
* A Go `string` is a Lean `String`; byte-wise comparison of strings is
  `stringLess`, the lexicographic comparison of code points (UTF-8 preserves
  that order).
* A Go `map[string]T` is the list of its entries in the order in which one
  `range` loop visits them; its keys are pairwise distinct (`mapKeysNodup`).
* A Go `error` is its message; a function returning `(x, error)` returns a
  pair whose second component is `none` for `nil`.
* A nil slice and an empty slice are both `[]`.
* Library calls whose result depends on the outside world (`ctxhttp.Do`,
  `json.Unmarshal`, ...) are fields of the environment `Lib`.
-/

namespace OpenTSDB

/-! ## Data model -/

/-- Go `error`, represented by its message. -/
abbrev error := String

/-- Go `float64`, represented by its bit pattern; values are only stored and returned. -/
structure float64 where
  bits : Nat
deriving DecidableEq, Repr

/-- Go `type sample struct { timestamp int64; value float64 }`. -/
structure sample where
  timestamp : Int
  value : float64
deriving DecidableEq, Repr

/-- Go `type datapoints map[string]float64`, as its entries in iteration order. -/
abbrev datapoints := List (String × float64)

/-- Go `type tags map[string]string`, as its entries in iteration order. -/
abbrev tags := List (String × String)

/-- Keys of a Go map are pairwise distinct. -/
def mapKeysNodup {β : Type} (m : List (String × β)) : Prop :=
  (m.map Prod.fst).Nodup

instance {β : Type} (m : List (String × β)) : Decidable (mapKeysNodup m) := by
  unfold mapKeysNodup
  infer_instance

/-- Go `type OpenTSDBResponse struct { Tags; Metric; Datapoints }`. -/
structure OpenTSDBResponse where
  Tags : tags
  Metric : String
  Datapoints : datapoints
deriving DecidableEq, Repr

/-- Go `type seriesIterator struct { samples []sample; cursor int; err error }`. -/
structure seriesIterator where
  samples : List sample
  cursor : Int
  err : Option error
deriving DecidableEq, Repr

/-- Go `type seriesSet struct { series []OpenTSDBResponse; cursor int; err error }`. -/
structure seriesSet where
  series : List OpenTSDBResponse
  cursor : Int
  err : Option error
deriving DecidableEq, Repr

/-! ## `sort.Search` and the series iterator -/

/-- The loop of Go `sort.Search`: `for i < j { h := int(uint(i+j) >> 1);
if !f(h) { i = h + 1 } else { j = h } }; return i`.  Every iteration shrinks
`j - i`, so `fuel ≥ j - i` iterations are enough (`searchLoop_spec`). -/
def searchLoop (f : Nat → Bool) : Nat → Nat → Nat → Nat
  | 0, i, _ => i
  | fuel + 1, i, j =>
    if i < j then
      let h := (i + j) / 2
      if !f h then searchLoop f fuel (h + 1) j else searchLoop f fuel i h
    else i

/-- Go `sort.Search(n, f)`: starts the loop with `i, j := 0, n`. -/
def Search (n : Nat) (f : Nat → Bool) : Nat :=
  searchLoop f n 0 n

/-- The element `s[i]` of a slice; `Search` only asks for indices below the length. -/
def sampleAt (s : List sample) (i : Nat) : sample :=
  s.getD i ⟨0, ⟨0⟩⟩

/-- Go `(*seriesIterator).Seek`: binary search for the first sample with
`timestamp >= t`; when there is none the index found is `len`, which is
decremented.  Always returns `true`. -/
def seriesIterator.Seek (it : seriesIterator) (t : Int) : Bool × seriesIterator :=
  let x : Int := Search it.samples.length (fun i => decide ((sampleAt it.samples i).timestamp ≥ t))
  let x := if x = (it.samples.length : Int) then x - 1 else x
  (true, { it with cursor := x })

/-- Go `(*seriesIterator).At`: `it.samples[it.cursor]`; `none` is the
index-out-of-range panic. -/
def seriesIterator.At (it : seriesIterator) : Option (Int × float64) :=
  if 0 ≤ it.cursor then
    match it.samples.get? it.cursor.toNat with
    | some s => some (s.timestamp, s.value)
    | none => none
  else none

/-- Go `(*seriesIterator).Next`. -/
def seriesIterator.Next (it : seriesIterator) : Bool × seriesIterator :=
  if it.cursor = (it.samples.length : Int) - 1 then (false, it)
  else (true, { it with cursor := it.cursor + 1 })

/-- Go `(*seriesIterator).Err`. -/
def seriesIterator.Err (it : seriesIterator) : Option error :=
  it.err

/-- Go `(*seriesSet).Next`. -/
def seriesSet.Next (ss : seriesSet) : Bool × seriesSet :=
  if ss.cursor = (ss.series.length : Int) - 1 then (false, ss)
  else (true, { ss with cursor := ss.cursor + 1 })

/-- Go `(*seriesSet).At`: `&ss.series[ss.cursor]`; `none` is the
index-out-of-range panic. -/
def seriesSet.At (ss : seriesSet) : Option OpenTSDBResponse :=
  if 0 ≤ ss.cursor then ss.series.get? ss.cursor.toNat else none

/-- Go `(*seriesSet).Err`. -/
def seriesSet.Err (ss : seriesSet) : Option error :=
  ss.err

/-- The iterator of the seek example: samples at timestamps 10, 20, 30, cursor at 2. -/
def iterator102030 : seriesIterator :=
  { samples := [⟨10, ⟨1⟩⟩, ⟨20, ⟨2⟩⟩, ⟨30, ⟨3⟩⟩], cursor := 2, err := none }

/-! ## Request building, transport and response parsing -/

/-- Prometheus `labels.MatchType`. -/
inductive MatchType where
  | MatchEqual
  | MatchNotEqual
  | MatchRegexp
  | MatchNotRegexp
deriving DecidableEq, Repr

/-- Prometheus `labels.Matcher`; `Typ` is the Go field `Type`. -/
structure Matcher where
  Typ : MatchType
  Name : String
  Value : String
deriving DecidableEq, Repr

/-- Prometheus `labels.MetricName`. -/
def MetricName : String := "__name__"

/-- Go `type Filter struct`; `Typ` is the Go field `Type`. -/
structure Filter where
  Typ : String
  TagK : String
  Filter : String
  GroupBy : Bool
deriving DecidableEq, Repr

/-- Go `type OpenTSDBQuery struct`. -/
structure OpenTSDBQuery where
  Aggregator : String
  Metric : String
  MsResolution : Bool
  Filters : List Filter
deriving DecidableEq, Repr

/-- Go `type OpenTSDBRequest struct`. -/
structure OpenTSDBRequest where
  Start : Int
  End : Int
  Queries : List OpenTSDBQuery
deriving DecidableEq, Repr

/-- Go `type OpenTSDBClient struct`; the `httpClient` field is `Lib.Do`. -/
structure OpenTSDBClient where
  BasicAuth : Bool
  BasicAuthUser : String
  BasicAuthPassword : String
  URL : String
deriving DecidableEq, Repr

/-- Go `type querier struct`. -/
structure querier where
  client : OpenTSDBClient
  labelMatchers : List Matcher
  mint : Int
  maxt : Int
deriving DecidableEq, Repr

/-- What `createRequest` puts into an `*http.Request`. -/
structure HTTPRequest where
  Method : String
  URL : String
  Body : String
  ContentType : Option String
  BasicAuth : Option (String × String)
deriving DecidableEq, Repr

/-- What `parseResponse` reads from an `*http.Response`: the status and the
result of `ioutil.ReadAll(res.Body)`. -/
structure HTTPResponse where
  StatusCode : Int
  Status : String
  Body : String
  BodyErr : Option error
deriving DecidableEq, Repr

/-- The library calls whose results come from outside the program.
`endpoint` is `url.Parse(c.URL)`, `path.Join(u.Path, "api/query")` and
`u.String()` (the source discards the parse error and the model takes the URL
to parse); `Marshal` is `json.Marshal`; `NewRequest` is `http.NewRequest`
(method, url, body); `Do` is `ctxhttp.Do` with the client's `httpClient`;
`Unmarshal` is `json.Unmarshal` into `[]OpenTSDBResponse`. -/
structure Lib where
  endpoint : String → String
  Marshal : OpenTSDBRequest → String
  NewRequest : String → String → String → Except error HTTPRequest
  Do : HTTPRequest → Except error HTTPResponse
  Unmarshal : String → Except error (List OpenTSDBResponse)

/-- The `for _, m := range query.labelMatchers` loop of `OpenTSDBClient.Query`,
threading the query under construction (`metric`).  A `__name__` matcher of
kind equal sets the metric and continues; a `__name__` matcher of any other
kind returns the error; every other matcher appends a `regexp` filter. -/
def matcherLoop : List Matcher → OpenTSDBQuery → Except error OpenTSDBQuery
  | [], metric => .ok metric
  | m :: rest, metric =>
    if m.Name = MetricName then
      if m.Typ = MatchType.MatchEqual then
        matcherLoop rest { metric with Metric := m.Value }
      else
        .error "Can't support not or regex for metric names"
    else
      matcherLoop rest { metric with
        Filters := metric.Filters ++
          [{ Typ := "regexp", TagK := m.Name, Filter := m.Value, GroupBy := false }] }

/-- The first part of `OpenTSDBClient.Query` (up to `r.Queries = append(...)`):
the request `r` handed to `createRequest`, or the matcher error. -/
def buildRequest (query : querier) : Except error OpenTSDBRequest :=
  match matcherLoop query.labelMatchers
      { Aggregator := "none", Metric := "", MsResolution := true, Filters := [] } with
  | .error err => .error err
  | .ok metric => .ok { Start := query.mint, End := query.maxt, Queries := [] ++ [metric] }

/-- Go `(*OpenTSDBClient).createRequest`. -/
def OpenTSDBClient.createRequest (lib : Lib) (c : OpenTSDBClient) (data : OpenTSDBRequest) :
    Except error HTTPRequest :=
  let u := lib.endpoint c.URL
  let postData := lib.Marshal data
  match lib.NewRequest "POST" u postData with
  | .error err => .error ("Failed to create request. error: " ++ err)
  | .ok req =>
    let req := { req with ContentType := some "application/json" }
    let req := if c.BasicAuth then
      { req with BasicAuth := some (c.BasicAuthUser, c.BasicAuthPassword) } else req
    .ok req

/-- Go `strings.Contains(s, substr)`. -/
def stringsContains (s substr : String) : Bool :=
  decide (substr.data <:+: s.data)

/-- The filtering loop of `parseResponse`, on the shared backing array:
`ret := data[:0]; for _, d := range data { if len(d.Datapoints) > 0 { ret =
append(ret, d) } }`.  `arr` is the backing array of `data` and `ret`, `i` the
index the `range` reads next, `w` is `len(ret)` and `k` the number of
iterations left; `append` stores at `arr[w]` because `cap(ret) = cap(data)`. -/
def filterLoop : Nat → Nat → Nat → List OpenTSDBResponse → List OpenTSDBResponse × Nat
  | 0, _, w, arr => (arr, w)
  | k + 1, i, w, arr =>
    match arr.get? i with
    | none => (arr, w)
    | some d =>
      if d.Datapoints.length > 0 then filterLoop k (i + 1) (w + 1) (arr.set w d)
      else filterLoop k (i + 1) w arr

/-- The slice `ret` after the filtering loop of `parseResponse`. -/
def filterEmptyRows (data : List OpenTSDBResponse) : List OpenTSDBResponse :=
  let r := filterLoop data.length 0 0 data
  r.1.take r.2

/-- Go `(*OpenTSDBClient).parseResponse`. -/
def parseResponse (lib : Lib) (_query : OpenTSDBRequest) (res : HTTPResponse) :
    List OpenTSDBResponse × Option error :=
  match res.BodyErr with
  | some err => ([], some err)
  | none =>
    if res.StatusCode.tdiv 100 ≠ 2 then
      if stringsContains res.Body "No such name for 'metrics'" then ([], none)
      else ([], some ("Request failed status: " ++ res.Status))
    else
      match lib.Unmarshal res.Body with
      | .error err => ([], some err)
      | .ok data => (filterEmptyRows data, none)

/-- Result of `OpenTSDBClient.Query`: the two Go results and the requests that
were handed to `ctxhttp.Do`. -/
structure QueryResult where
  data : List OpenTSDBResponse
  err : Option error
  sent : List HTTPRequest
deriving DecidableEq, Repr

/-- Go `(*OpenTSDBClient).Query`. -/
def OpenTSDBClient.Query (lib : Lib) (c : OpenTSDBClient) (query : querier) : QueryResult :=
  match buildRequest query with
  | .error err => { data := [], err := some err, sent := [] }
  | .ok r =>
    match c.createRequest lib r with
    | .error err => { data := [], err := some err, sent := [] }
    | .ok req =>
      match lib.Do req with
      | .error err => { data := [], err := some err, sent := [req] }
      | .ok res =>
        match parseResponse lib r res with
        | (_, some err) => { data := [], err := some err, sent := [req] }
        | (queryResult, none) => { data := queryResult, err := none, sent := [req] }

/-- Go `(*querier).Select`: on error the set is `&seriesSet{err: err}` (cursor
and series keep their zero values), otherwise `&seriesSet{series: data,
cursor: -1}`. -/
def querier.Select (lib : Lib) (q : querier) (m : List Matcher) : seriesSet :=
  let q := { q with labelMatchers := m }
  let r := q.client.Query lib q
  match r.err with
  | some err => { series := [], cursor := 0, err := some err }
  | none => { series := r.data, cursor := -1, err := none }

/-- A `Lib` for examples: requests are created, the server answers 200 with
the given body, and the body decodes to the given entries. -/
def exampleLib (body : String) (entries : List OpenTSDBResponse) : Lib :=
  { endpoint := fun u => u ++ "/api/query"
    Marshal := fun _ => "request"
    NewRequest := fun m u b =>
      .ok { Method := m, URL := u, Body := b, ContentType := none, BasicAuth := none }
    Do := fun _ => .ok { StatusCode := 200, Status := "200 OK", Body := body, BodyErr := none }
    Unmarshal := fun _ => .ok entries }

/-- A client for examples. -/
def exampleClient : OpenTSDBClient :=
  { BasicAuth := false, BasicAuthUser := "", BasicAuthPassword := "",
    URL := "http://localhost:4242" }

/-- The matchers `[{__name__, equal, "foo"}, {host, regex, "bar.*"}]`. -/
def fooBarMatchers : List Matcher :=
  [⟨.MatchEqual, "__name__", "foo"⟩, ⟨.MatchRegexp, "host", "bar.*"⟩]

/-- The single matcher `{__name__, regex, "foo.*"}`. -/
def regexNameMatchers : List Matcher :=
  [⟨.MatchRegexp, "__name__", "foo.*"⟩]

/-- A querier for examples, over the time range 100 to 200. -/
def exampleQuerier (ms : List Matcher) : querier :=
  { client := exampleClient, labelMatchers := ms, mint := 100, maxt := 200 }

/-- The series iterator after `k` calls of `Next`. -/
def seriesIterator.afterNext (it : seriesIterator) : Nat → seriesIterator
  | 0 => it
  | k + 1 => (it.afterNext k).Next.2

/-- The series set after `k` calls of `Next`. -/
def seriesSet.afterNext (ss : seriesSet) : Nat → seriesSet
  | 0 => ss
  | k + 1 => (ss.afterNext k).Next.2

/-- A response entry for examples: tag `host=a`, metric `m`, and the given datapoints. -/
def exampleEntry (dps : datapoints) : OpenTSDBResponse :=
  { Tags := [("host", "a")], Metric := "m", Datapoints := dps }

/-- A response for examples, with the given status code and body. -/
def exampleResponse (code : Int) (body : String) : HTTPResponse :=
  { StatusCode := code, Status := "status", Body := body, BodyErr := none }

/-! ## Samples and labels of a response entry -/

/-- Prometheus `labels.Label`. -/
structure Label where
  Name : String
  Value : String
deriving DecidableEq, Repr

/-- Prometheus `labels.Labels`. -/
abbrev Labels := List Label

/-- Lexicographic comparison of two character sequences by code point. -/
def lessChars : List Char → List Char → Bool
  | [], [] => false
  | [], _ :: _ => true
  | _ :: _, [] => false
  | a :: as, b :: bs =>
    if a.toNat < b.toNat then true
    else if b.toNat < a.toNat then false
    else lessChars as bs

/-- Go `a < b` on strings. -/
def stringLess (a b : String) : Bool :=
  lessChars a.data b.data

/-- Go `sort.Slice(x, less)`: the slice rearranged so that no element is
`less` than one before it; the order of elements that compare equal is not
specified by Go.  Modelled by insertion sort, which keeps equal elements in
their order; the theorems below use only that the result is a permutation of
the input and is sorted. -/
def sortSlice {α : Type} (less : α → α → Bool) (x : List α) : List α :=
  x.insertionSort (fun a b => less b a = false)

/-- The errors of Go `strconv` that matter to `ParseInt`. -/
inductive NumError where
  | ErrSyntax
  | ErrRange
deriving DecidableEq, Repr

/-- The largest `uint64`. -/
def maxUint64 : Nat := 2 ^ 64 - 1

/-- The digit loop of Go `strconv.ParseUint(s, 10, 64)`: a byte that is not a
decimal digit is a syntax error (value 0); `n >= cutoff` with `cutoff =
maxUint64/10 + 1`, or an overflow of `n*10 + d`, is a range error (value
`maxUint64`). -/
def parseUintLoop : List Char → Nat → Nat × Option NumError
  | [], n => (n, none)
  | c :: cs, n =>
    if '0'.toNat ≤ c.toNat ∧ c.toNat ≤ '9'.toNat then
      let d := c.toNat - '0'.toNat
      if n ≥ maxUint64 / 10 + 1 then (maxUint64, some .ErrRange)
      else
        let n := n * 10
        let n1 := (n + d) % 2 ^ 64
        if n1 < n ∨ n1 > maxUint64 then (maxUint64, some .ErrRange)
        else parseUintLoop cs n1
    else (0, some .ErrSyntax)

/-- Go `strconv.ParseUint(s, 10, 64)`. -/
def ParseUint (s : List Char) : Nat × Option NumError :=
  if s = [] then (0, some .ErrSyntax) else parseUintLoop s 0

/-- Go `strconv.ParseInt(s, 10, 64)`: an optional sign, then `ParseUint`; a
syntax error gives 0, a magnitude out of range gives the nearest `int64`. -/
def ParseInt (s : String) : Int × Option NumError :=
  if s.data = [] then (0, some .ErrSyntax)
  else
    let neg := decide (s.data.head? = some '-')
    let s1 := if s.data.head? = some '+' ∨ s.data.head? = some '-' then s.data.tail else s.data
    match ParseUint s1 with
    | (_, some .ErrSyntax) => (0, some .ErrSyntax)
    | (un, _) =>
      let cutoff : Nat := 2 ^ 63
      if !neg ∧ un ≥ cutoff then ((cutoff : Int) - 1, some .ErrRange)
      else if neg ∧ un > cutoff then (-(cutoff : Int), some .ErrRange)
      else (if neg then -(un : Int) else (un : Int), none)

/-- The `int64` that holds the low 64 bits of `x` (wrap-around of Go integer arithmetic). -/
def wrapInt64 (x : Int) : Int :=
  (x + 2 ^ 63) % 2 ^ 64 - 2 ^ 63

/-- The body of the loop of `datapoints.samples` for the entry `(ts, v)`:
`time, _ := strconv.ParseInt(ts, 10, 64); time *= 1000; sample{time, v}`. -/
def sampleOfEntry (e : String × float64) : sample :=
  let time := (ParseInt e.1).1
  let time := wrapInt64 (time * 1000)
  { timestamp := time, value := e.2 }

/-- Go `(datapoints).samples`. -/
def datapoints.samples (d : datapoints) : List sample :=
  sortSlice (fun a b => decide (a.timestamp < b.timestamp)) (d.map sampleOfEntry)

/-- Go `(tags).labels`. -/
def tags.labels (t : tags) : Labels :=
  sortSlice (fun a b => stringLess a.Name b.Name) (t.map (fun e => { Name := e.1, Value := e.2 }))

/-- Go `(*OpenTSDBResponse).Labels`: the sorted tag labels with the metric
name label appended. -/
def OpenTSDBResponse.Labels (s : OpenTSDBResponse) : Labels :=
  tags.labels s.Tags ++ [{ Name := MetricName, Value := s.Metric }]

/-- Go `(*OpenTSDBResponse).Iterator`. -/
def OpenTSDBResponse.Iterator (s : OpenTSDBResponse) : seriesIterator :=
  { samples := datapoints.samples s.Datapoints, cursor := -1, err := none }

/-- The decimal numeral with the given sign characters and digits (most significant first). -/
def decimalKey (sign : List Char) (digits : List Nat) : String :=
  String.mk (sign ++ digits.map Nat.digitChar)

/-- The integer denoted by the decimal numeral `decimalKey sign digits`. -/
def decimalValue (sign : List Char) (digits : List Nat) : Int :=
  if sign = ['-'] then -((Nat.ofDigits 10 digits.reverse : Nat) : Int)
  else ((Nat.ofDigits 10 digits.reverse : Nat) : Int)

/-- Go `(*querier).LabelValues`. -/
def querier.LabelValues (_q : querier) (name : String) : List String × Option error :=
  if name = MetricName then (["not yet implemented"], none)
  else ([], some "Only /api/v1/label/__name__/values is supported")

/-- A call that a consumer makes on a series iterator to move it. -/
inductive iteratorCall where
  | Next
  | Seek (t : Int)
deriving DecidableEq, Repr

/-- The series iterator after one call. -/
def seriesIterator.call (it : seriesIterator) : iteratorCall → seriesIterator
  | .Next => it.Next.2
  | .Seek t => (it.Seek t).2

/-- The series iterator after a sequence of calls, made from left to right. -/
def seriesIterator.run (it : seriesIterator) : List iteratorCall → seriesIterator
  | [] => it
  | c :: cs => (it.call c).run cs

/-- The label that the loop of `tags.labels` appends for the tag `(n, v)`. -/
def labelOfTag (e : String × String) : Label :=
  { Name := e.1, Value := e.2 }

/-- The filter that the loop of `Query` appends for a matcher on a tag. -/
def filterOfMatcher (m : Matcher) : Filter :=
  { Typ := "regexp", TagK := m.Name, Filter := m.Value, GroupBy := false }

/-! ## Theorems -/

/-- Binary search: with everything below `i` rejected, everything from `j` on
accepted and enough fuel, the loop returns the boundary between the rejected
and the accepted indices. -/
theorem searchLoop_spec (f : Nat → Bool) (n : Nat)
    (mono : ∀ a b, a ≤ b → b < n → f a = true → f b = true) :
    ∀ fuel i j, i ≤ j → j ≤ n → j - i ≤ fuel →
      (∀ k, k < i → f k = false) → (∀ k, j ≤ k → k < n → f k = true) →
      i ≤ searchLoop f fuel i j ∧ searchLoop f fuel i j ≤ j ∧
      (∀ k, k < searchLoop f fuel i j → f k = false) ∧
      (∀ k, searchLoop f fuel i j ≤ k → k < n → f k = true) := by
  intro fuel
  induction fuel with
  | zero =>
    intro i j hij _ hfuel hlo hhi
    have hji : j = i := by omega
    subst hji
    simp only [searchLoop]
    exact ⟨le_refl _, le_refl _, hlo, hhi⟩
  | succ fuel ih =>
    intro i j hij hjn hfuel hlo hhi
    simp only [searchLoop]
    by_cases hlt : i < j
    · simp only [hlt, if_true]
      have hh1 : i ≤ (i + j) / 2 := by omega
      have hh2 : (i + j) / 2 < j := by omega
      cases hf : f ((i + j) / 2) with
      | false =>
        simp only [Bool.not_false, if_true]
        have hlo2 : ∀ k, k < (i + j) / 2 + 1 → f k = false := by
          intro k hk
          by_contra hne
          have hkt : f k = true := by simpa using hne
          have := mono k ((i + j) / 2) (by omega) (by omega) hkt
          rw [hf] at this
          exact Bool.noConfusion this
        obtain ⟨h1, h2, h3, h4⟩ := ih ((i + j) / 2 + 1) j (by omega) hjn (by omega) hlo2 hhi
        exact ⟨by omega, h2, h3, h4⟩
      | true =>
        simp only [Bool.not_true, Bool.false_eq_true, if_false]
        have hhi2 : ∀ k, (i + j) / 2 ≤ k → k < n → f k = true := by
          intro k hk hkn
          exact mono _ k hk hkn hf
        obtain ⟨h1, h2, h3, h4⟩ := ih i ((i + j) / 2) hh1 (by omega) (by omega) hlo hhi2
        exact ⟨h1, by omega, h3, h4⟩
    · simp only [hlt, if_false]
      have hji : j = i := by omega
      subst hji
      exact ⟨le_refl _, le_refl _, hlo, hhi⟩

/-- What `sort.Search` returns for a monotone predicate on `[0, n)`. -/
theorem Search_spec (f : Nat → Bool) (n : Nat)
    (mono : ∀ a b, a ≤ b → b < n → f a = true → f b = true) :
    Search n f ≤ n ∧ (∀ k, k < Search n f → f k = false) ∧
      (∀ k, Search n f ≤ k → k < n → f k = true) := by
  obtain ⟨_, h2, h3, h4⟩ := searchLoop_spec f n mono n 0 n (Nat.zero_le _) (le_refl _)
    (by omega) (fun k hk => absurd hk (Nat.not_lt_zero k)) (fun k hk hkn => absurd hkn (by omega))
  exact ⟨h2, h3, h4⟩

/-- In a slice sorted by ascending timestamp, a later index has a timestamp at
least as large. -/
theorem sampleAt_mono (s : List sample)
    (hs : s.Pairwise (fun a b => a.timestamp ≤ b.timestamp))
    (a b : Nat) (hab : a ≤ b) (hb : b < s.length) :
    (sampleAt s a).timestamp ≤ (sampleAt s b).timestamp := by
  have ha : a < s.length := by omega
  unfold sampleAt
  rw [List.getD_eq_getElem s _ ha, List.getD_eq_getElem s _ hb]
  rcases Nat.lt_or_ge a b with hlt | hge
  · exact (List.pairwise_iff_getElem.mp hs) a b ha hb hlt
  · have : a = b := by omega
    subst this
    exact le_refl _

/-- C1: on a non-empty sample list sorted by ascending timestamp, and whatever
the cursor was, `Seek(t)` returns true, keeps the samples, and leaves the
cursor on a sample: at the smallest index whose timestamp is `>= t` when there
is one, and at the last index `len - 1` when every timestamp is `< t`. -/
theorem Seek_first_at_or_after (it : seriesIterator) (t : Int)
    (hne : it.samples ≠ [])
    (hs : it.samples.Pairwise (fun a b => a.timestamp ≤ b.timestamp)) :
    (it.Seek t).1 = true ∧ (it.Seek t).2.samples = it.samples ∧
    (0 ≤ (it.Seek t).2.cursor ∧ (it.Seek t).2.cursor < (it.samples.length : Int)) ∧
    ((∃ i, i < it.samples.length ∧ t ≤ (sampleAt it.samples i).timestamp) →
      ∃ i : Nat, (it.Seek t).2.cursor = (i : Int) ∧ i < it.samples.length ∧
        t ≤ (sampleAt it.samples i).timestamp ∧
        ∀ j, j < i → (sampleAt it.samples j).timestamp < t) ∧
    ((∀ i, i < it.samples.length → (sampleAt it.samples i).timestamp < t) →
      (it.Seek t).2.cursor = (it.samples.length : Int) - 1) := by
  have hmono : ∀ a b, a ≤ b → b < it.samples.length →
      decide ((sampleAt it.samples a).timestamp ≥ t) = true →
      decide ((sampleAt it.samples b).timestamp ≥ t) = true := by
    intro a b hab hb ha
    have h1 := sampleAt_mono it.samples hs a b hab hb
    have h2 : (sampleAt it.samples a).timestamp ≥ t := of_decide_eq_true ha
    exact decide_eq_true (le_trans h2 h1)
  obtain ⟨hle, hlo, hhi⟩ := Search_spec _ it.samples.length hmono
  have hpos : 0 < it.samples.length := List.length_pos.mpr hne
  refine ⟨rfl, rfl, ?_, ?_, ?_⟩
  · simp only [seriesIterator.Seek]
    split_ifs with h <;> omega
  · rintro ⟨i, hi, hti⟩
    have hx : Search it.samples.length
        (fun i => decide ((sampleAt it.samples i).timestamp ≥ t)) < it.samples.length := by
      by_contra hnot
      have := hlo i (by omega)
      simp only [decide_eq_false_iff_not, ge_iff_le, not_le] at this
      omega
    refine ⟨_, ?_, hx, ?_, ?_⟩
    · simp only [seriesIterator.Seek]
      rw [if_neg]
      omega
    · exact of_decide_eq_true (hhi _ (le_refl _) hx)
    · intro j hj
      have := hlo j hj
      simpa using this
  · intro hall
    have hx : Search it.samples.length
        (fun i => decide ((sampleAt it.samples i).timestamp ≥ t)) = it.samples.length := by
      by_contra hnot
      have hlt : Search it.samples.length
          (fun i => decide ((sampleAt it.samples i).timestamp ≥ t)) < it.samples.length := by
        omega
      have h1 := hhi _ (le_refl _) hlt
      have h2 := hall _ hlt
      have h3 : (sampleAt it.samples (Search it.samples.length
          (fun i => decide ((sampleAt it.samples i).timestamp ≥ t)))).timestamp ≥ t :=
        of_decide_eq_true h1
      omega
    simp only [seriesIterator.Seek]
    rw [hx, if_pos rfl]

/-- C1 on the samples at timestamps 10, 20, 30 with the cursor anywhere (here
at 2): `Seek(15)` lands on 20, `Seek(35)` on 30 and `Seek(5)` on 10; the last
conjunct is the theorem at `Seek(15)`. -/
theorem Seek_first_at_or_after_witness :
    (iterator102030.samples ≠ []) ∧
    (iterator102030.samples.Pairwise (fun a b => a.timestamp ≤ b.timestamp)) ∧
    (iterator102030.Seek 15).2.At = some (20, ⟨2⟩) ∧
    (iterator102030.Seek 35).2.At = some (30, ⟨3⟩) ∧
    (iterator102030.Seek 5).2.At = some (10, ⟨1⟩) ∧
    ((iterator102030.Seek 15).1 = true ∧
      (iterator102030.Seek 15).2.samples = iterator102030.samples ∧
      (0 ≤ (iterator102030.Seek 15).2.cursor ∧
        (iterator102030.Seek 15).2.cursor < (iterator102030.samples.length : Int)) ∧
      ((∃ i, i < iterator102030.samples.length ∧
          15 ≤ (sampleAt iterator102030.samples i).timestamp) →
        ∃ i : Nat, (iterator102030.Seek 15).2.cursor = (i : Int) ∧
          i < iterator102030.samples.length ∧
          15 ≤ (sampleAt iterator102030.samples i).timestamp ∧
          ∀ j, j < i → (sampleAt iterator102030.samples j).timestamp < 15) ∧
      ((∀ i, i < iterator102030.samples.length →
          (sampleAt iterator102030.samples i).timestamp < 15) →
        (iterator102030.Seek 15).2.cursor = (iterator102030.samples.length : Int) - 1)) :=
  ⟨by decide, by decide, by decide, by decide, by decide,
    Seek_first_at_or_after iterator102030 15 (by decide) (by decide)⟩

/-! ### Request building -/

/-- The filter that the loop of `Query` appends for a matcher on a tag. -/
theorem matcherLoop_ok (ms : List Matcher) :
    ∀ q : OpenTSDBQuery,
      (∀ m ∈ ms, m.Name = MetricName → m.Typ = MatchType.MatchEqual) →
      matcherLoop ms q = .ok
        { Aggregator := q.Aggregator
          Metric := (((ms.filter (fun m => m.Name = MetricName)).getLast?).map
            (fun m => m.Value)).getD q.Metric
          MsResolution := q.MsResolution
          Filters := q.Filters ++ (ms.filter (fun m => m.Name ≠ MetricName)).map
            (fun m => { Typ := "regexp", TagK := m.Name, Filter := m.Value, GroupBy := false }) } := by
  induction ms with
  | nil => intro q _; simp [matcherLoop]
  | cons m rest ih =>
    intro q h
    have hrest : ∀ x ∈ rest, x.Name = MetricName → x.Typ = MatchType.MatchEqual :=
      fun x hx => h x (List.mem_cons_of_mem _ hx)
    by_cases hn : m.Name = MetricName
    · have ht : m.Typ = MatchType.MatchEqual := h m (List.mem_cons_self _ _) hn
      simp only [matcherLoop, hn, ht, if_true]
      rw [ih _ hrest]
      simp only [List.filter_cons, hn, decide_True, if_true, ne_eq, not_true_eq_false,
        decide_False, Bool.false_eq_true, if_false, List.getLast?_cons]
      cases (List.filter (fun m => decide (m.Name = MetricName)) rest).getLast? <;> simp
    · simp only [matcherLoop, hn, if_false]
      rw [ih _ hrest]
      simp [List.filter_cons, hn]

/-- A `__name__` matcher of a kind other than equal makes the loop of `Query`
return the error, whatever the query under construction. -/
theorem matcherLoop_error (ms : List Matcher) :
    ∀ q : OpenTSDBQuery,
      (∃ m ∈ ms, m.Name = MetricName ∧ m.Typ ≠ MatchType.MatchEqual) →
      matcherLoop ms q = .error "Can't support not or regex for metric names" := by
  induction ms with
  | nil => intro q h; obtain ⟨m, hm, _⟩ := h; cases hm
  | cons m rest ih =>
    intro q h
    by_cases hn : m.Name = MetricName
    · by_cases ht : m.Typ = MatchType.MatchEqual
      · simp only [matcherLoop, hn, ht, if_true]
        apply ih
        obtain ⟨x, hx, hxn, hxt⟩ := h
        rcases List.mem_cons.mp hx with rfl | hx
        · exact absurd ht hxt
        · exact ⟨x, hx, hxn, hxt⟩
      · simp [matcherLoop, hn, ht]
    · simp only [matcherLoop, hn, if_false]
      apply ih
      obtain ⟨x, hx, hxn, hxt⟩ := h
      rcases List.mem_cons.mp hx with rfl | hx
      · exact absurd hxn hn
      · exact ⟨x, hx, hxn, hxt⟩

/-- C2: when every matcher named `__name__` has kind equal, the request built
by `Query` is `{mint, maxt, [q]}` with one query `q`: aggregator "none",
msResolution true, one `regexp` filter per matcher on another label, in matcher
order, with groupBy false, and as metric the value of the `__name__` matcher
(of the last one should there be several, the empty string should there be
none).  That request is the one handed to `createRequest`, whose result is
the one request sent. -/
theorem Query_request_built (c : OpenTSDBClient) (ms : List Matcher) (mint maxt : Int)
    (h : ∀ m ∈ ms, m.Name = MetricName → m.Typ = MatchType.MatchEqual) :
    ∃ q : OpenTSDBQuery,
      buildRequest { client := c, labelMatchers := ms, mint := mint, maxt := maxt } =
        .ok { Start := mint, End := maxt, Queries := [q] } ∧
      q.Aggregator = "none" ∧ q.MsResolution = true ∧
      q.Filters = (ms.filter (fun m => m.Name ≠ MetricName)).map
        (fun m => { Typ := "regexp", TagK := m.Name, Filter := m.Value, GroupBy := false }) ∧
      (∀ m, ms.filter (fun m => m.Name = MetricName) = [m] → q.Metric = m.Value) ∧
      q.Metric = (((ms.filter (fun m => m.Name = MetricName)).getLast?).map
        (fun m => m.Value)).getD "" ∧
      (∀ lib req,
        c.createRequest lib { Start := mint, End := maxt, Queries := [q] } = .ok req →
        (c.Query lib { client := c, labelMatchers := ms, mint := mint, maxt := maxt }).sent
          = [req]) := by
  refine ⟨{ Aggregator := "none"
            Metric := (((ms.filter (fun m => m.Name = MetricName)).getLast?).map
              (fun m => m.Value)).getD ""
            MsResolution := true
            Filters := [] ++ (ms.filter (fun m => m.Name ≠ MetricName)).map
              (fun m => { Typ := "regexp", TagK := m.Name, Filter := m.Value,
                          GroupBy := false }) }, ?_, rfl, rfl, ?_, ?_, rfl, ?_⟩
  · simp only [buildRequest]
    rw [matcherLoop_ok ms _ h]
    rfl
  · simp
  · intro m hm
    simp [hm]
  · intro lib req hreq
    simp only [OpenTSDBClient.Query, buildRequest]
    rw [matcherLoop_ok ms _ h]
    simp only [List.nil_append] at hreq ⊢
    rw [hreq]
    simp only
    cases lib.Do req with
    | error e => rfl
    | ok res =>
      simp only
      split <;> rfl

/-- C2 on the matchers `[{__name__, equal, "foo"}, {host, regex, "bar.*"}]`:
one query with metric "foo" and the one filter `{regexp, host, bar.*}`. -/
theorem Query_request_built_witness :
    (∀ m ∈ fooBarMatchers, m.Name = MetricName → m.Typ = MatchType.MatchEqual) ∧
    buildRequest (exampleQuerier fooBarMatchers) =
      .ok { Start := 100, End := 200, Queries := [{ Aggregator := "none", Metric := "foo",
                                                    MsResolution := true,
                                                    Filters := [{ Typ := "regexp", TagK := "host",
                                                                  Filter := "bar.*",
                                                                  GroupBy := false }] }] } ∧
    ∃ q : OpenTSDBQuery,
      buildRequest (exampleQuerier fooBarMatchers) =
        .ok { Start := 100, End := 200, Queries := [q] } :=
  ⟨by decide, by rfl,
    (Query_request_built exampleClient fooBarMatchers 100 200 (by decide)).imp
      (fun _ hq => hq.1)⟩

/-- C3: request building fails, with the error "Can't support not or regex for
metric names", exactly when some matcher named `__name__` has a kind other
than equal; that is its only error, and `Query` then returns it with no data
and without any request having been handed to the HTTP client. -/
theorem Query_unsupported_matcher_iff (query : querier) :
    (buildRequest query = .error "Can't support not or regex for metric names" ↔
      ∃ m ∈ query.labelMatchers, m.Name = MetricName ∧ m.Typ ≠ MatchType.MatchEqual) ∧
    (∀ e, buildRequest query = .error e →
      e = "Can't support not or regex for metric names" ∧
      ∀ (lib : Lib) (c : OpenTSDBClient),
        c.Query lib query = { data := [], err := some e, sent := [] }) := by
  by_cases hbad : ∃ m ∈ query.labelMatchers, m.Name = MetricName ∧ m.Typ ≠ MatchType.MatchEqual
  · have hb : buildRequest query = .error "Can't support not or regex for metric names" := by
      simp only [buildRequest]
      rw [matcherLoop_error _ _ hbad]
    refine ⟨⟨fun _ => hbad, fun _ => hb⟩, ?_⟩
    intro e he
    rw [hb] at he
    have hee : "Can't support not or regex for metric names" = e := by
      injection he
    subst hee
    refine ⟨rfl, ?_⟩
    intro lib c
    simp only [OpenTSDBClient.Query, hb]
  · have hgood : ∀ m ∈ query.labelMatchers, m.Name = MetricName →
        m.Typ = MatchType.MatchEqual := by
      intro m hm hn
      by_contra ht
      exact hbad ⟨m, hm, hn, ht⟩
    have hb : ∃ r, buildRequest query = .ok r := by
      simp only [buildRequest]
      rw [matcherLoop_ok _ _ hgood]
      exact ⟨_, rfl⟩
    obtain ⟨r, hr⟩ := hb
    refine ⟨⟨fun h => ?_, fun h => absurd h hbad⟩, ?_⟩
    · rw [hr] at h
      cases h
    · intro e he
      rw [hr] at he
      cases he

/-- C3 on the single matcher `{__name__, regex, "foo.*"}`: building fails and
nothing is sent. -/
theorem Query_unsupported_matcher_iff_witness :
    buildRequest (exampleQuerier regexNameMatchers) =
      .error "Can't support not or regex for metric names" ∧
    ∀ (lib : Lib) (c : OpenTSDBClient),
      c.Query lib (exampleQuerier regexNameMatchers) =
        { data := [], err := some "Can't support not or regex for metric names", sent := [] } :=
  ⟨by rfl,
    ((Query_unsupported_matcher_iff (exampleQuerier regexNameMatchers)).2
      "Can't support not or regex for metric names" (by rfl)).2⟩

/-! ### The series set returned on failure -/

/-- C4 (the code at a failing input): for the matcher `{__name__, regex,
"foo.*"}` request building fails, and the set returned by `Select` carries the
error and no series, yet its cursor is 0 rather than -1: the first call of
`Next`, and every later one, returns true, and `At` after the first `Next`
indexes out of range. -/
theorem Select_error_set_Next_true (lib : Lib) :
    ((exampleQuerier []).Select lib regexNameMatchers).Err =
      some "Can't support not or regex for metric names" ∧
    ((exampleQuerier []).Select lib regexNameMatchers).series = [] ∧
    ((exampleQuerier []).Select lib regexNameMatchers).cursor = 0 ∧
    ((exampleQuerier []).Select lib regexNameMatchers).Next.1 = true ∧
    ((exampleQuerier []).Select lib regexNameMatchers).Next.2.At = none ∧
    ∀ k, (((exampleQuerier []).Select lib regexNameMatchers).afterNext k).Next.1 = true := by
  have hsel : (exampleQuerier []).Select lib regexNameMatchers =
      { series := [], cursor := 0,
        err := some "Can't support not or regex for metric names" } := rfl
  rw [hsel]
  refine ⟨rfl, rfl, rfl, by decide, by decide, ?_⟩
  have hcur : ∀ k : Nat,
      (seriesSet.mk [] 0 (some "Can't support not or regex for metric names")).afterNext k =
        { series := [], cursor := (k : Int),
          err := some "Can't support not or regex for metric names" } := by
    intro k
    induction k with
    | zero => rfl
    | succ k ih =>
      have hne : ¬ ((k : Int) = ((([] : List OpenTSDBResponse).length : Nat) : Int) - 1) := by
        simp only [List.length_nil]
        omega
      simp only [seriesSet.afterNext, ih, seriesSet.Next, if_neg hne]
      simp
  intro k
  rw [hcur k]
  have hne : ¬ ((k : Int) = ((([] : List OpenTSDBResponse).length : Nat) : Int) - 1) := by
    simp only [List.length_nil]
    omega
  simp only [seriesSet.Next, if_neg hne]

/-! ### Response parsing -/

/-- Invariant of the in-place filtering loop: with `w ≤ i` and `k` entries left
to read, the slice finally returned is the part already kept followed by the
entries with datapoints among those not yet read. -/
theorem filterLoop_spec :
    ∀ (k i w : Nat) (arr : List OpenTSDBResponse), w ≤ i → i + k = arr.length →
      (filterLoop k i w arr).1.take (filterLoop k i w arr).2 =
        arr.take w ++ (arr.drop i).filter (fun d => decide (d.Datapoints.length > 0)) := by
  intro k
  induction k with
  | zero =>
    intro i w arr _ hlen
    have hi : arr.length ≤ i := by omega
    simp [filterLoop, List.drop_eq_nil_of_le hi]
  | succ k ih =>
    intro i w arr hwi hlen
    have hi : i < arr.length := by omega
    have hw : w < arr.length := by omega
    have hget : arr.get? i = some arr[i] := by
      rw [List.get?_eq_getElem?, List.getElem?_eq_getElem hi]
    have hdrop : arr.drop i = arr[i] :: arr.drop (i + 1) := List.drop_eq_getElem_cons hi
    simp only [filterLoop, hget]
    by_cases hp : arr[i].Datapoints.length > 0
    · simp only [hp, if_true]
      rw [ih (i + 1) (w + 1) (arr.set w arr[i]) (by omega) (by simp; omega)]
      rw [List.drop_set_of_lt _ _ (by omega), hdrop, List.filter_cons]
      simp only [hp, decide_True, if_true]
      have htake : (arr.set w arr[i]).take (w + 1) = arr.take w ++ [arr[i]] := by
        rw [List.take_succ, List.getElem?_set_self (by omega)]
        congr 1
        rw [List.set_take]
        apply List.set_eq_of_length_le
        simp
      rw [htake]
      simp
    · simp only [hp, if_false]
      rw [ih (i + 1) w arr (by omega) (by omega), hdrop, List.filter_cons]
      simp [hp]

/-- The in-place filtering of `parseResponse` computes the sub-list of the
entries that have at least one datapoint. -/
theorem filterEmptyRows_eq_filter (data : List OpenTSDBResponse) :
    filterEmptyRows data = data.filter (fun d => decide (d.Datapoints.length > 0)) := by
  unfold filterEmptyRows
  have h := filterLoop_spec data.length 0 0 data (le_refl _) (by omega)
  simpa using h

/-- A status code is in 200..299 exactly when Go's `StatusCode/100` is 2. -/
theorem statusCode_div_eq_two (c : Int) : c.tdiv 100 = 2 ↔ (200 ≤ c ∧ c ≤ 299) := by
  rcases le_or_lt 0 c with h | h
  · rw [Int.tdiv_eq_ediv h (by norm_num)]
    omega
  · have h1 : c.tdiv 100 = -((-c).tdiv 100) := by
      rw [Int.neg_tdiv, neg_neg]
    rw [h1, Int.tdiv_eq_ediv (by omega) (by norm_num)]
    omega

/-- C6: when the body was read, the status is 2xx and the body decodes to the
list `data`, `parseResponse` returns, without error, exactly the entries of
`data` with a non-empty datapoint mapping, in their order and unchanged: the
result is a sub-list of `data`, none of its entries has an empty mapping, and
every entry of `data` with a datapoint is in it. -/
theorem parseResponse_drops_empty_rows (lib : Lib) (query : OpenTSDBRequest)
    (res : HTTPResponse) (data : List OpenTSDBResponse)
    (hbody : res.BodyErr = none) (hcode : 200 ≤ res.StatusCode ∧ res.StatusCode ≤ 299)
    (hdata : lib.Unmarshal res.Body = .ok data) :
    parseResponse lib query res =
      (data.filter (fun d => decide (d.Datapoints ≠ [])), none) ∧
    (parseResponse lib query res).1.Sublist data ∧
    (∀ d ∈ (parseResponse lib query res).1, d.Datapoints ≠ []) ∧
    (∀ d ∈ data, d.Datapoints ≠ [] → d ∈ (parseResponse lib query res).1) := by
  have hdiv : res.StatusCode.tdiv 100 = 2 := (statusCode_div_eq_two _).mpr hcode
  have hfilter : (fun d : OpenTSDBResponse => decide (d.Datapoints.length > 0)) =
      (fun d => decide (d.Datapoints ≠ [])) := by
    funext d
    cases d.Datapoints <;> simp
  have hres : parseResponse lib query res =
      (data.filter (fun d => decide (d.Datapoints ≠ [])), none) := by
    simp only [parseResponse, hbody, hdiv, ne_eq, not_true_eq_false, if_false, hdata]
    rw [filterEmptyRows_eq_filter, hfilter]
  rw [hres]
  refine ⟨rfl, List.filter_sublist _, ?_, ?_⟩
  · intro d hd
    have := (List.mem_filter.mp hd).2
    simpa using this
  · intro d hd hne
    exact List.mem_filter.mpr ⟨hd, by simpa using hne⟩

/-- C6 on a response with three entries, the middle one without datapoints. -/
theorem parseResponse_drops_empty_rows_witness :
    (exampleResponse 200 "[...]").BodyErr = none ∧
    (200 ≤ (exampleResponse 200 "[...]").StatusCode ∧
      (exampleResponse 200 "[...]").StatusCode ≤ 299) ∧
    parseResponse
        (exampleLib "[...]" [exampleEntry [("1", ⟨7⟩)], exampleEntry [],
          exampleEntry [("2", ⟨8⟩), ("3", ⟨9⟩)]])
        { Start := 0, End := 10, Queries := [] } (exampleResponse 200 "[...]") =
      ([exampleEntry [("1", ⟨7⟩)], exampleEntry [("2", ⟨8⟩), ("3", ⟨9⟩)]], none) :=
  ⟨rfl, by decide,
    ((parseResponse_drops_empty_rows
      (exampleLib "[...]" [exampleEntry [("1", ⟨7⟩)], exampleEntry [],
        exampleEntry [("2", ⟨8⟩), ("3", ⟨9⟩)]])
      { Start := 0, End := 10, Queries := [] } (exampleResponse 200 "[...]")
      [exampleEntry [("1", ⟨7⟩)], exampleEntry [], exampleEntry [("2", ⟨8⟩), ("3", ⟨9⟩)]]
      rfl (by decide) rfl).1).trans (by decide)⟩

/-- C7: once the body is read, for a status code outside 200..299
`parseResponse` returns the empty list without error when the body contains
"No such name for 'metrics'", and no entries with the error "Request failed
status: ..." for every other body; for a status code in 200..299 the result
is that of decoding and filtering the body, whatever the body contains. -/
theorem parseResponse_non2xx (lib : Lib) (query : OpenTSDBRequest) (res : HTTPResponse)
    (hbody : res.BodyErr = none) :
    (¬ (200 ≤ res.StatusCode ∧ res.StatusCode ≤ 299) →
      ("No such name for 'metrics'".data <:+: res.Body.data →
        parseResponse lib query res = ([], none)) ∧
      (¬ "No such name for 'metrics'".data <:+: res.Body.data →
        parseResponse lib query res = ([], some ("Request failed status: " ++ res.Status)))) ∧
    ((200 ≤ res.StatusCode ∧ res.StatusCode ≤ 299) →
      parseResponse lib query res =
        match lib.Unmarshal res.Body with
        | .error err => ([], some err)
        | .ok data => (filterEmptyRows data, none)) := by
  constructor
  · intro hcode
    have hdiv : res.StatusCode.tdiv 100 ≠ 2 := fun h => hcode ((statusCode_div_eq_two _).mp h)
    constructor
    · intro hc
      simp [parseResponse, hbody, hdiv, stringsContains, hc]
    · intro hc
      simp [parseResponse, hbody, hdiv, stringsContains, hc]
  · intro hcode
    have hdiv : res.StatusCode.tdiv 100 = 2 := (statusCode_div_eq_two _).mpr hcode
    simp only [parseResponse, hbody, hdiv, ne_eq, not_true_eq_false, if_false]

/-- C7 on status 400 with the body of an unknown metric, on status 500 with
another body, and on status 200 with a body that contains the marker. -/
theorem parseResponse_non2xx_witness :
    (¬ (200 ≤ (exampleResponse 400 "No such name for 'metrics': foo").StatusCode ∧
        (exampleResponse 400 "No such name for 'metrics': foo").StatusCode ≤ 299)) ∧
    parseResponse (exampleLib "" []) { Start := 0, End := 10, Queries := [] }
        (exampleResponse 400 "No such name for 'metrics': foo") = ([], none) ∧
    parseResponse (exampleLib "" []) { Start := 0, End := 10, Queries := [] }
        (exampleResponse 500 "oops") = ([], some "Request failed status: status") ∧
    parseResponse (exampleLib "" [exampleEntry [("1", ⟨7⟩)]])
        { Start := 0, End := 10, Queries := [] }
        (exampleResponse 200 "No such name for 'metrics'") =
      ([exampleEntry [("1", ⟨7⟩)]], none) :=
  ⟨by decide,
    ((parseResponse_non2xx (exampleLib "" []) { Start := 0, End := 10, Queries := [] }
      (exampleResponse 400 "No such name for 'metrics': foo") rfl).1 (by decide)).1 (by decide),
    by decide, by decide⟩

/-! ### Advancing a cursor -/

/-- A series iterator that starts before the first sample has, after `k`
calls of `Next`, its cursor at `min k n - 1` and its samples unchanged. -/
theorem seriesIterator_afterNext_cursor (it : seriesIterator) (h : it.cursor = -1) :
    ∀ k, (it.afterNext k).cursor = (min k it.samples.length : Nat) - 1 ∧
      (it.afterNext k).samples = it.samples := by
  intro k
  induction k with
  | zero => simp [seriesIterator.afterNext, h]
  | succ k ih =>
    obtain ⟨hc, hs⟩ := ih
    simp only [seriesIterator.afterNext, seriesIterator.Next]
    split_ifs with hlast
    · rw [hs] at hlast
      refine ⟨?_, hs⟩
      rw [hc] at hlast ⊢
      omega
    · rw [hs] at hlast
      refine ⟨?_, hs⟩
      simp only
      rw [hc] at hlast ⊢
      omega

/-- A series set that starts before the first series has, after `k` calls of
`Next`, its cursor at `min k n - 1` and its series unchanged. -/
theorem seriesSet_afterNext_cursor (ss : seriesSet) (h : ss.cursor = -1) :
    ∀ k, (ss.afterNext k).cursor = (min k ss.series.length : Nat) - 1 ∧
      (ss.afterNext k).series = ss.series := by
  intro k
  induction k with
  | zero => simp [seriesSet.afterNext, h]
  | succ k ih =>
    obtain ⟨hc, hs⟩ := ih
    simp only [seriesSet.afterNext, seriesSet.Next]
    split_ifs with hlast
    · rw [hs] at hlast
      refine ⟨?_, hs⟩
      rw [hc] at hlast ⊢
      omega
    · rw [hs] at hlast
      refine ⟨?_, hs⟩
      simp only
      rw [hc] at hlast ⊢
      omega

/-- C8: for a series iterator and for a series set whose cursor starts at -1
over a sequence of length `n`: each of the first `n` calls of `Next` returns
true and moves the cursor up by one, the call number `k + 1` leaving it at
`k`; every later call returns false and leaves the cursor at `n - 1`; the
sequence itself never changes.  With `n = 0` the first call returns false. -/
theorem Next_walks_then_stops (it : seriesIterator) (ss : seriesSet)
    (hit : it.cursor = -1) (hss : ss.cursor = -1) :
    (∀ k, k < it.samples.length →
      (it.afterNext k).Next.1 = true ∧ (it.afterNext (k + 1)).cursor = (k : Int) ∧
      (it.afterNext (k + 1)).cursor = (it.afterNext k).cursor + 1) ∧
    (∀ k, it.samples.length ≤ k →
      (it.afterNext k).Next.1 = false ∧
      (it.afterNext (k + 1)).cursor = (it.samples.length : Int) - 1) ∧
    (∀ k, (it.afterNext k).samples = it.samples) ∧
    (∀ k, k < ss.series.length →
      (ss.afterNext k).Next.1 = true ∧ (ss.afterNext (k + 1)).cursor = (k : Int) ∧
      (ss.afterNext (k + 1)).cursor = (ss.afterNext k).cursor + 1) ∧
    (∀ k, ss.series.length ≤ k →
      (ss.afterNext k).Next.1 = false ∧
      (ss.afterNext (k + 1)).cursor = (ss.series.length : Int) - 1) ∧
    (∀ k, (ss.afterNext k).series = ss.series) := by
  refine ⟨?_, ?_, fun k => (seriesIterator_afterNext_cursor it hit k).2, ?_, ?_,
    fun k => (seriesSet_afterNext_cursor ss hss k).2⟩
  · intro k hk
    obtain ⟨hc, hs⟩ := seriesIterator_afterNext_cursor it hit k
    obtain ⟨hc1, _⟩ := seriesIterator_afterNext_cursor it hit (k + 1)
    have hne : ¬ ((it.afterNext k).cursor = ((it.afterNext k).samples.length : Int) - 1) := by
      rw [hc, hs]
      omega
    refine ⟨?_, ?_, ?_⟩
    · simp only [seriesIterator.Next, if_neg hne]
    · rw [hc1]
      omega
    · rw [hc1, hc]
      omega
  · intro k hk
    obtain ⟨hc, hs⟩ := seriesIterator_afterNext_cursor it hit k
    obtain ⟨hc1, _⟩ := seriesIterator_afterNext_cursor it hit (k + 1)
    have heq : (it.afterNext k).cursor = ((it.afterNext k).samples.length : Int) - 1 := by
      rw [hc, hs]
      omega
    refine ⟨?_, ?_⟩
    · simp only [seriesIterator.Next, if_pos heq]
    · rw [hc1]
      omega
  · intro k hk
    obtain ⟨hc, hs⟩ := seriesSet_afterNext_cursor ss hss k
    obtain ⟨hc1, _⟩ := seriesSet_afterNext_cursor ss hss (k + 1)
    have hne : ¬ ((ss.afterNext k).cursor = ((ss.afterNext k).series.length : Int) - 1) := by
      rw [hc, hs]
      omega
    refine ⟨?_, ?_, ?_⟩
    · simp only [seriesSet.Next, if_neg hne]
    · rw [hc1]
      omega
    · rw [hc1, hc]
      omega
  · intro k hk
    obtain ⟨hc, hs⟩ := seriesSet_afterNext_cursor ss hss k
    obtain ⟨hc1, _⟩ := seriesSet_afterNext_cursor ss hss (k + 1)
    have heq : (ss.afterNext k).cursor = ((ss.afterNext k).series.length : Int) - 1 := by
      rw [hc, hs]
      omega
    refine ⟨?_, ?_⟩
    · simp only [seriesSet.Next, if_pos heq]
    · rw [hc1]
      omega

/-- C8 on the iterator that `Iterator()` builds for an entry with three
datapoints and on a set without series: the third call of `Next` on the
iterator returns true and lands on index 2, the fourth returns false and stays
there; the first call on the empty set returns false. -/
theorem Next_walks_then_stops_witness :
    (exampleEntry [("10", ⟨1⟩), ("20", ⟨2⟩), ("30", ⟨3⟩)]).Iterator.cursor = -1 ∧
    (seriesSet.mk [] (-1) none).cursor = -1 ∧
    (exampleEntry [("10", ⟨1⟩), ("20", ⟨2⟩), ("30", ⟨3⟩)]).Iterator.samples.length = 3 ∧
    (((exampleEntry [("10", ⟨1⟩), ("20", ⟨2⟩), ("30", ⟨3⟩)]).Iterator.afterNext 2).Next.1 = true ∧
      ((exampleEntry [("10", ⟨1⟩), ("20", ⟨2⟩), ("30", ⟨3⟩)]).Iterator.afterNext 3).cursor = 2) ∧
    (((exampleEntry [("10", ⟨1⟩), ("20", ⟨2⟩), ("30", ⟨3⟩)]).Iterator.afterNext 3).Next.1 = false ∧
      ((exampleEntry [("10", ⟨1⟩), ("20", ⟨2⟩), ("30", ⟨3⟩)]).Iterator.afterNext 4).cursor = 2) ∧
    ((seriesSet.mk [] (-1) none).afterNext 0).Next.1 = false :=
  ⟨rfl, rfl, by decide,
    ⟨((Next_walks_then_stops (exampleEntry [("10", ⟨1⟩), ("20", ⟨2⟩), ("30", ⟨3⟩)]).Iterator
        (seriesSet.mk [] (-1) none) rfl rfl).1 2 (by decide)).1,
      ((Next_walks_then_stops (exampleEntry [("10", ⟨1⟩), ("20", ⟨2⟩), ("30", ⟨3⟩)]).Iterator
        (seriesSet.mk [] (-1) none) rfl rfl).1 2 (by decide)).2.1⟩,
    by decide,
    ((Next_walks_then_stops (exampleEntry [("10", ⟨1⟩), ("20", ⟨2⟩), ("30", ⟨3⟩)]).Iterator
      (seriesSet.mk [] (-1) none) rfl rfl).2.2.2.2.1 0 (by decide)).1⟩

/-! ### Labels and samples -/

/-- C5 (the code at a failing input): for the tags `{host: a}` and the metric
`m`, `Labels()` is `[{host, a}, {__name__, m}]`; it contains the metric-name
label, but `__name__` sorts before `host`, so the label set is not sorted by
name. -/
theorem Labels_not_sorted_by_name :
    mapKeysNodup (exampleEntry []).Tags ∧
    (exampleEntry []).Labels = [⟨"host", "a"⟩, ⟨"__name__", "m"⟩] ∧
    (⟨MetricName, (exampleEntry []).Metric⟩ : Label) ∈ (exampleEntry []).Labels ∧
    stringLess "__name__" "host" = true ∧
    ¬ (exampleEntry []).Labels.Pairwise (fun a b => stringLess b.Name a.Name = false) := by
  refine ⟨by decide, by decide, by decide, by decide, by decide⟩

/-- The result of `sort.Slice` is a permutation of its input. -/
theorem sortSlice_perm {α : Type} (less : α → α → Bool) (x : List α) :
    (sortSlice less x).Perm x :=
  List.perm_insertionSort _ x

/-- The samples are those of the entries, rearranged. -/
theorem samples_perm (d : datapoints) :
    (datapoints.samples d).Perm (d.map sampleOfEntry) :=
  sortSlice_perm _ _

/-- The samples are in non-decreasing order of timestamp. -/
theorem samples_pairwise_le (d : datapoints) :
    (datapoints.samples d).Pairwise (fun a b => a.timestamp ≤ b.timestamp) := by
  haveI : IsTotal sample (fun a b => decide (b.timestamp < a.timestamp) = false) :=
    ⟨fun a b => by
      simp only [decide_eq_false_iff_not, not_lt]
      exact le_total _ _⟩
  haveI : IsTrans sample (fun a b => decide (b.timestamp < a.timestamp) = false) :=
    ⟨fun a b c => by
      simp only [decide_eq_false_iff_not, not_lt]
      exact le_trans⟩
  have h := List.sorted_insertionSort
    (fun a b : sample => decide (b.timestamp < a.timestamp) = false) (d.map sampleOfEntry)
  refine List.Pairwise.imp ?_ h
  intro a b hab
  simpa using hab

/-- C9 (counterexample): the mapping `{"1": _, "01": _}` has two distinct keys
that both yield the timestamp 1000, so its samples are not strictly ascending. -/
theorem samples_not_strictly_ascending :
    mapKeysNodup [("1", (⟨0⟩ : float64)), ("01", ⟨1⟩)] ∧
    ¬ (∀ (i j : Nat) (a b : sample), i < j →
      (datapoints.samples [("1", ⟨0⟩), ("01", ⟨1⟩)])[i]? = some a →
      (datapoints.samples [("1", ⟨0⟩), ("01", ⟨1⟩)])[j]? = some b →
      a.timestamp < b.timestamp) := by
  refine ⟨by decide, ?_⟩
  intro h
  have h1 : (datapoints.samples [("1", ⟨0⟩), ("01", ⟨1⟩)])[0]? = some ⟨1000, ⟨0⟩⟩ := by decide
  have h2 : (datapoints.samples [("1", ⟨0⟩), ("01", ⟨1⟩)])[1]? = some ⟨1000, ⟨1⟩⟩ := by decide
  have := h 0 1 _ _ (by decide) h1 h2
  exact absurd this (by decide)

/-- C9 (amended): the samples of every datapoint mapping are ordered by
ascending timestamp, `samples[i].timestamp <= samples[j].timestamp` for
`i < j`, and strictly so whenever no two entries yield the same timestamp. -/
theorem samples_ascending (d : datapoints) :
    (∀ (i j : Nat) (a b : sample), i < j →
      (datapoints.samples d)[i]? = some a → (datapoints.samples d)[j]? = some b →
      a.timestamp ≤ b.timestamp) ∧
    ((d.map (fun e => (sampleOfEntry e).timestamp)).Nodup →
      ∀ (i j : Nat) (a b : sample), i < j →
        (datapoints.samples d)[i]? = some a → (datapoints.samples d)[j]? = some b →
        a.timestamp < b.timestamp) := by
  have hle := samples_pairwise_le d
  constructor
  · intro i j a b hij ha hb
    obtain ⟨hi, rfl⟩ := List.getElem?_eq_some.mp ha
    obtain ⟨hj, rfl⟩ := List.getElem?_eq_some.mp hb
    exact (List.pairwise_iff_getElem.mp hle) i j hi hj hij
  · intro hnd i j a b hij ha hb
    obtain ⟨hi, rfl⟩ := List.getElem?_eq_some.mp ha
    obtain ⟨hj, rfl⟩ := List.getElem?_eq_some.mp hb
    have hperm : ((datapoints.samples d).map (fun s => s.timestamp)).Perm
        (d.map (fun e => (sampleOfEntry e).timestamp)) := by
      have := (samples_perm d).map (fun s => s.timestamp)
      simpa [List.map_map] using this
    have hnd2 : ((datapoints.samples d).map (fun s => s.timestamp)).Nodup :=
      hperm.nodup_iff.mpr hnd
    have hne : (datapoints.samples d).Pairwise (fun a b => a.timestamp ≠ b.timestamp) :=
      List.pairwise_map.mp hnd2
    have hlt : (datapoints.samples d).Pairwise (fun a b => a.timestamp < b.timestamp) :=
      (hle.and hne).imp (fun h => lt_of_le_of_ne h.1 h.2)
    exact (List.pairwise_iff_getElem.mp hlt) i j hi hj hij

/-- C9 (amended) on the mapping `{"20": _, "10": _, "30": _}`: the timestamps
are distinct and the samples come out at 10000, 20000, 30000. -/
theorem samples_ascending_witness :
    ([("20", (⟨2⟩ : float64)), ("10", ⟨1⟩), ("30", ⟨3⟩)].map
      (fun e => (sampleOfEntry e).timestamp)).Nodup ∧
    datapoints.samples [("20", ⟨2⟩), ("10", ⟨1⟩), ("30", ⟨3⟩)] =
      [⟨10000, ⟨1⟩⟩, ⟨20000, ⟨2⟩⟩, ⟨30000, ⟨3⟩⟩] ∧
    ∀ (i j : Nat) (a b : sample), i < j →
      (datapoints.samples [("20", ⟨2⟩), ("10", ⟨1⟩), ("30", ⟨3⟩)])[i]? = some a →
      (datapoints.samples [("20", ⟨2⟩), ("10", ⟨1⟩), ("30", ⟨3⟩)])[j]? = some b →
      a.timestamp < b.timestamp :=
  ⟨by decide, by decide,
    (samples_ascending [("20", ⟨2⟩), ("10", ⟨1⟩), ("30", ⟨3⟩)]).2 (by decide)⟩

/-! ### Timestamps of the samples -/

/-- The character of a decimal digit has code `48 + d`. -/
theorem digitChar_toNat (d : Nat) (h : d < 10) : (Nat.digitChar d).toNat = 48 + d := by
  interval_cases d <;> rfl

/-- On the characters of decimal digits whose value stays below `2^64`, the
digit loop of `ParseUint` returns that value and no error. -/
theorem parseUintLoop_digits :
    ∀ (ds : List Nat) (n : Nat), (∀ x ∈ ds, x < 10) →
      n * 10 ^ ds.length + Nat.ofDigits 10 ds.reverse < 2 ^ 64 →
      parseUintLoop (ds.map Nat.digitChar) n =
        (n * 10 ^ ds.length + Nat.ofDigits 10 ds.reverse, none) := by
  intro ds
  induction ds with
  | nil => intro n _ _; simp [parseUintLoop]
  | cons d ds ih =>
    intro n hds hlt
    have hd : d < 10 := hds d (List.mem_cons_self _ _)
    have hrest : ∀ x ∈ ds, x < 10 := fun x hx => hds x (List.mem_cons_of_mem _ hx)
    have hval : n * 10 ^ (d :: ds).length + Nat.ofDigits 10 (d :: ds).reverse =
        (n * 10 + d) * 10 ^ ds.length + Nat.ofDigits 10 ds.reverse := by
      rw [List.reverse_cons, Nat.ofDigits_append, List.length_reverse, Nat.ofDigits_singleton,
        List.length_cons]
      ring
    rw [hval] at hlt ⊢
    have hP : 1 ≤ 10 ^ ds.length := Nat.one_le_pow _ _ (by norm_num)
    have hle : n * 10 + d ≤ (n * 10 + d) * 10 ^ ds.length := Nat.le_mul_of_pos_right _ hP
    have hsmall : n * 10 + d < 2 ^ 64 := by omega
    have hc : (Nat.digitChar d).toNat = 48 + d := digitChar_toNat d hd
    have h0 : '0'.toNat = 48 := rfl
    have h9 : '9'.toNat = 57 := rfl
    have hdigit : '0'.toNat ≤ (Nat.digitChar d).toNat ∧ (Nat.digitChar d).toNat ≤ '9'.toNat := by
      rw [hc, h0, h9]
      omega
    have hcut : ¬ (n ≥ maxUint64 / 10 + 1) := by
      simp only [maxUint64]
      norm_num at hsmall ⊢
      omega
    have hmod : (n * 10 + ((Nat.digitChar d).toNat - '0'.toNat)) % 2 ^ 64 = n * 10 + d := by
      rw [hc, h0, Nat.add_sub_cancel_left]
      exact Nat.mod_eq_of_lt hsmall
    have hover : ¬ ((n * 10 + ((Nat.digitChar d).toNat - '0'.toNat)) % 2 ^ 64 < n * 10 ∨
        (n * 10 + ((Nat.digitChar d).toNat - '0'.toNat)) % 2 ^ 64 > maxUint64) := by
      rw [hmod]
      simp only [maxUint64]
      norm_num at hsmall ⊢
      omega
    simp only [List.map_cons, parseUintLoop, hdigit, and_self, if_true, hcut, if_false, hover]
    rw [hmod]
    exact ih (n * 10 + d) hrest hlt

/-- The wrap-around to `int64` leaves a value of the `int64` range unchanged. -/
theorem wrapInt64_of_inRange (x : Int) (hlo : -2 ^ 63 ≤ x) (hhi : x < 2 ^ 63) :
    wrapInt64 x = x := by
  unfold wrapInt64
  rw [Int.emod_eq_of_lt (by omega) (by omega)]
  omega

/-- The sign handling of `ParseInt`: when the characters `cs` after the
optional sign do not start with a sign and `ParseUint` reads them as `N`
without error, `ParseInt` returns `N` or `-N` as long as that is an `int64`. -/
theorem ParseInt_of_ParseUint (sign cs : List Char) (N : Nat)
    (hsign : sign = [] ∨ sign = ['+'] ∨ sign = ['-']) (hcs : cs ≠ [])
    (hhead : cs.head? ≠ some '+' ∧ cs.head? ≠ some '-')
    (hu : ParseUint cs = (N, none))
    (hpos : sign ≠ ['-'] → N < 2 ^ 63) (hneg : sign = ['-'] → N ≤ 2 ^ 63) :
    ParseInt (String.mk (sign ++ cs)) =
      (if sign = ['-'] then -(N : Int) else (N : Int), none) := by
  rcases hsign with rfl | rfl | rfl
  · have hN : ¬ (N ≥ 2 ^ 63) := by
      have := hpos (by decide)
      omega
    simp only [ParseInt, List.nil_append, hcs, if_false, hhead.1, hhead.2, or_self,
      decide_False, hu]
    simp
    omega
  · have hN : ¬ (N ≥ 2 ^ 63) := by
      have := hpos (by decide)
      omega
    have hdata : (String.mk (['+'] ++ cs)).data = '+' :: cs := rfl
    simp only [ParseInt, hdata]
    simp [hu]
    omega
  · have hN : ¬ (N > 2 ^ 63) := by
      have := hneg rfl
      omega
    have hdata : (String.mk (['-'] ++ cs)).data = '-' :: cs := rfl
    simp only [ParseInt, hdata]
    simp [hu]
    omega

/-- On a decimal numeral of at least one digit, with or without a sign, whose
value lies in the `int64` range, `ParseInt` returns that value and no error. -/
theorem ParseInt_decimalKey (sign : List Char) (ds : List Nat)
    (hsign : sign = [] ∨ sign = ['+'] ∨ sign = ['-']) (hne : ds ≠ [])
    (hds : ∀ x ∈ ds, x < 10)
    (hlo : -2 ^ 63 ≤ decimalValue sign ds) (hhi : decimalValue sign ds < 2 ^ 63) :
    ParseInt (decimalKey sign ds) = (decimalValue sign ds, none) := by
  have hmapne : ds.map Nat.digitChar ≠ [] := by
    intro h
    exact hne (List.map_eq_nil_iff.mp h)
  have hhead : (ds.map Nat.digitChar).head? ≠ some '+' ∧
      (ds.map Nat.digitChar).head? ≠ some '-' := by
    obtain ⟨d0, rest, rfl⟩ := List.exists_cons_of_ne_nil hne
    have hd0 : d0 < 10 := hds d0 (List.mem_cons_self _ _)
    have hc0 : (Nat.digitChar d0).toNat = 48 + d0 := digitChar_toNat d0 hd0
    have h43 : '+'.toNat = 43 := rfl
    have h45 : '-'.toNat = 45 := rfl
    constructor
    · intro h
      have h1 : Nat.digitChar d0 = '+' := by simpa using h
      have := congrArg Char.toNat h1
      omega
    · intro h
      have h1 : Nat.digitChar d0 = '-' := by simpa using h
      have := congrArg Char.toNat h1
      omega
  have hpos : sign ≠ ['-'] → Nat.ofDigits 10 ds.reverse < 2 ^ 63 := by
    intro hs
    unfold decimalValue at hhi
    rw [if_neg hs] at hhi
    omega
  have hneg : sign = ['-'] → Nat.ofDigits 10 ds.reverse ≤ 2 ^ 63 := by
    intro hs
    unfold decimalValue at hlo
    rw [if_pos hs] at hlo
    omega
  have hbound : Nat.ofDigits 10 ds.reverse ≤ 2 ^ 63 := by
    by_cases hs : sign = ['-']
    · exact hneg hs
    · exact Nat.le_of_lt (hpos hs)
  have huint : ParseUint (ds.map Nat.digitChar) = (Nat.ofDigits 10 ds.reverse, none) := by
    unfold ParseUint
    rw [if_neg hmapne]
    have := parseUintLoop_digits ds 0 hds (by omega)
    simpa using this
  exact ParseInt_of_ParseUint sign _ _ hsign hmapne hhead huint hpos hneg

/-- C10 (counterexample): the key "9223372036854776" is a decimal numeral that
`ParseInt` reads without error, but its product with 1000 exceeds the `int64`
range; the one sample of the mapping has the wrapped timestamp
-9223372036854775616, not 9223372036854776000. -/
theorem samples_timestamp_wraps :
    decimalKey [] [9, 2, 2, 3, 3, 7, 2, 0, 3, 6, 8, 5, 4, 7, 7, 6] = "9223372036854776" ∧
    decimalValue [] [9, 2, 2, 3, 3, 7, 2, 0, 3, 6, 8, 5, 4, 7, 7, 6] = 9223372036854776 ∧
    ParseInt "9223372036854776" = (9223372036854776, none) ∧
    datapoints.samples [("9223372036854776", ⟨7⟩)] = [⟨-9223372036854775616, ⟨7⟩⟩] ∧
    ¬ ((⟨9223372036854776 * 1000, ⟨7⟩⟩ : sample) ∈
      datapoints.samples [("9223372036854776", ⟨7⟩)]) := by
  refine ⟨by decide, by decide, by decide, by decide, by decide⟩

/-- C10 (amended): `samples()` returns one sample per entry of the mapping:
the result has the length of the mapping and is a rearrangement of the samples
of its entries, each of which keeps the value of its entry; and the sample of
an entry whose key is a decimal numeral (digits with an optional sign) of an
integer `k` with `k * 1000` in the `int64` range has the timestamp `k * 1000`. -/
theorem samples_one_per_entry (d : datapoints) :
    (datapoints.samples d).length = d.length ∧
    (datapoints.samples d).Perm (d.map sampleOfEntry) ∧
    (∀ e : String × float64, (sampleOfEntry e).value = e.2) ∧
    (∀ (sign : List Char) (ds : List Nat) (v : float64),
      (decimalKey sign ds, v) ∈ d →
      (sign = [] ∨ sign = ['+'] ∨ sign = ['-']) → ds ≠ [] → (∀ x ∈ ds, x < 10) →
      -2 ^ 63 ≤ decimalValue sign ds * 1000 → decimalValue sign ds * 1000 < 2 ^ 63 →
      sampleOfEntry (decimalKey sign ds, v) = ⟨decimalValue sign ds * 1000, v⟩ ∧
      (⟨decimalValue sign ds * 1000, v⟩ : sample) ∈ datapoints.samples d) := by
  have hperm := samples_perm d
  refine ⟨?_, hperm, fun _ => rfl, ?_⟩
  · rw [hperm.length_eq, List.length_map]
  · intro sign ds v hmem hsign hne hds hlo hhi
    have hparse : ParseInt (decimalKey sign ds) = (decimalValue sign ds, none) :=
      ParseInt_decimalKey sign ds hsign hne hds (by omega) (by omega)
    have hsample : sampleOfEntry (decimalKey sign ds, v) =
        ⟨decimalValue sign ds * 1000, v⟩ := by
      simp only [sampleOfEntry, hparse]
      rw [wrapInt64_of_inRange _ hlo hhi]
    refine ⟨hsample, ?_⟩
    rw [hperm.mem_iff, ← hsample]
    exact List.mem_map_of_mem _ hmem

/-- C10 (amended) on the mapping `{"1500000000": _, "-3": _}`: two samples,
at -3000 and at 1500000000000. -/
theorem samples_one_per_entry_witness :
    ((decimalKey [] [1, 5, 0, 0, 0, 0, 0, 0, 0, 0], (⟨7⟩ : float64)) ∈
      [("1500000000", (⟨7⟩ : float64)), ("-3", ⟨8⟩)]) ∧
    ([1, 5, 0, 0, 0, 0, 0, 0, 0, 0] ≠ ([] : List Nat)) ∧
    (∀ x ∈ [1, 5, 0, 0, 0, 0, 0, 0, 0, 0], x < 10) ∧
    (-2 ^ 63 ≤ decimalValue [] [1, 5, 0, 0, 0, 0, 0, 0, 0, 0] * 1000 ∧
      decimalValue [] [1, 5, 0, 0, 0, 0, 0, 0, 0, 0] * 1000 < 2 ^ 63) ∧
    datapoints.samples [("1500000000", ⟨7⟩), ("-3", ⟨8⟩)] =
      [⟨-3000, ⟨8⟩⟩, ⟨1500000000000, ⟨7⟩⟩] ∧
    (sampleOfEntry (decimalKey [] [1, 5, 0, 0, 0, 0, 0, 0, 0, 0], ⟨7⟩) =
        ⟨decimalValue [] [1, 5, 0, 0, 0, 0, 0, 0, 0, 0] * 1000, ⟨7⟩⟩ ∧
      (⟨decimalValue [] [1, 5, 0, 0, 0, 0, 0, 0, 0, 0] * 1000, ⟨7⟩⟩ : sample) ∈
        datapoints.samples [("1500000000", ⟨7⟩), ("-3", ⟨8⟩)]) :=
  ⟨by decide, by decide, by decide, ⟨by decide, by decide⟩, by decide,
    (samples_one_per_entry [("1500000000", ⟨7⟩), ("-3", ⟨8⟩)]).2.2.2 []
      [1, 5, 0, 0, 0, 0, 0, 0, 0, 0] ⟨7⟩ (by decide) (Or.inl rfl) (by decide) (by decide)
      (by decide) (by decide)⟩

/-! ### The series set of a successful query -/

/-- C11: when the query succeeds with the parsed list `L`, the series set
returned by `Select` has no error and enumerates `L` in order: for every
position `i` of `L`, the call number `i + 1` of `Next` returns true and `At`
then returns `L[i]`; the call number `n + 1` returns false.  With `L` empty
the first call of `Next` already returns false. -/
theorem Select_enumerates_result (lib : Lib) (q : querier) (m : List Matcher)
    (L : List OpenTSDBResponse)
    (herr : (q.client.Query lib { q with labelMatchers := m }).err = none)
    (hdata : (q.client.Query lib { q with labelMatchers := m }).data = L) :
    (q.Select lib m).Err = none ∧ (q.Select lib m).series = L ∧
    (∀ (i : Nat) (x : OpenTSDBResponse), L[i]? = some x →
      ((q.Select lib m).afterNext i).Next.1 = true ∧
      ((q.Select lib m).afterNext (i + 1)).At = some x) ∧
    ((q.Select lib m).afterNext L.length).Next.1 = false ∧
    (L = [] → (q.Select lib m).Next.1 = false) := by
  have hsel : q.Select lib m = { series := L, cursor := -1, err := none } := by
    simp only [querier.Select, herr, hdata]
  rw [hsel]
  have hcur := seriesSet_afterNext_cursor { series := L, cursor := -1, err := none } rfl
  refine ⟨rfl, rfl, ?_, ?_, ?_⟩
  · intro i x hx
    obtain ⟨hi, hxi⟩ := List.getElem?_eq_some.mp hx
    obtain ⟨hc, hs⟩ := hcur i
    obtain ⟨hc1, hs1⟩ := hcur (i + 1)
    simp only at hc hs hc1 hs1
    constructor
    · have hne : ¬ ((seriesSet.afterNext { series := L, cursor := -1, err := none } i).cursor =
          ((seriesSet.afterNext { series := L, cursor := -1, err := none } i).series.length
            : Int) - 1) := by
        rw [hc, hs]
        omega
      simp only [seriesSet.Next, if_neg hne]
    · have hci : (seriesSet.afterNext { series := L, cursor := -1, err := none } (i + 1)).cursor
          = (i : Int) := by
        rw [hc1]
        omega
      simp only [seriesSet.At, hci, hs1, Int.toNat_ofNat, List.get?_eq_getElem?]
      rw [if_pos (by omega), hx]
  · obtain ⟨hc, hs⟩ := hcur L.length
    simp only at hc hs
    have heq : (seriesSet.afterNext { series := L, cursor := -1, err := none } L.length).cursor =
        ((seriesSet.afterNext { series := L, cursor := -1, err := none } L.length).series.length
          : Int) - 1 := by
      rw [hc, hs]
      omega
    simp only [seriesSet.Next, if_pos heq]
  · intro hL
    subst hL
    rfl

/-- C11 on a server that answers 200 with the body `[]`, decoded to the empty
list, and on one whose body decodes to two entries with datapoints. -/
theorem Select_enumerates_result_witness :
    ((exampleQuerier []).client.Query (exampleLib "[]" [])
      { exampleQuerier [] with labelMatchers := fooBarMatchers }).err = none ∧
    ((exampleQuerier []).Select (exampleLib "[]" []) fooBarMatchers).Err = none ∧
    ((exampleQuerier []).Select (exampleLib "[]" []) fooBarMatchers).series = [] ∧
    ((exampleQuerier []).Select (exampleLib "[]" []) fooBarMatchers).Next.1 = false ∧
    (((exampleQuerier []).Select
      (exampleLib "[..]" [exampleEntry [("1", ⟨7⟩)], exampleEntry [("2", ⟨8⟩)]])
      fooBarMatchers).afterNext 2).At = some (exampleEntry [("2", ⟨8⟩)]) :=
  ⟨by decide,
    (Select_enumerates_result (exampleLib "[]" []) (exampleQuerier []) fooBarMatchers []
      (by decide) (by decide)).1,
    (Select_enumerates_result (exampleLib "[]" []) (exampleQuerier []) fooBarMatchers []
      (by decide) (by decide)).2.1,
    (Select_enumerates_result (exampleLib "[]" []) (exampleQuerier []) fooBarMatchers []
      (by decide) (by decide)).2.2.2.2 rfl,
    by decide⟩

/-! ### Matcher kinds and metric-name matchers -/

/-- The loop of `Query` gives the same result on two matcher lists that agree
position by position on name and value, and on kind where the name is
`__name__`. -/
theorem matcherLoop_kind_erasure (ms₁ ms₂ : List Matcher)
    (h : List.Forall₂ (fun a b : Matcher => a.Name = b.Name ∧ a.Value = b.Value ∧
      (a.Name = MetricName → a.Typ = b.Typ)) ms₁ ms₂) :
    ∀ q : OpenTSDBQuery, matcherLoop ms₁ q = matcherLoop ms₂ q := by
  induction h with
  | nil => intro q; rfl
  | @cons a b l₁ l₂ hab _ ih =>
    intro q
    obtain ⟨hn, hv, ht⟩ := hab
    by_cases hname : a.Name = MetricName
    · have hname2 : b.Name = MetricName := hn ▸ hname
      have htyp : a.Typ = b.Typ := ht hname
      simp only [matcherLoop, hname, hname2, if_true, ← htyp, ← hv]
      split_ifs
      · exact ih _
      · rfl
    · have hname2 : ¬ b.Name = MetricName := hn ▸ hname
      simp only [matcherLoop, hname, hname2, if_false, ← hv, ← hn]
      exact ih _

/-- C12: two matcher lists of the same length that agree position by position
on name and value, and on kind at every matcher named `__name__`, give the
same result of request building (the same request or the same failure) and
the same outcome of `Query`; the kind of a matcher on another label has no
influence. -/
theorem Query_kind_erasure (lib : Lib) (c : OpenTSDBClient) (mint maxt : Int)
    (ms₁ ms₂ : List Matcher)
    (h : List.Forall₂ (fun a b : Matcher => a.Name = b.Name ∧ a.Value = b.Value ∧
      (a.Name = MetricName → a.Typ = b.Typ)) ms₁ ms₂) :
    ms₁.length = ms₂.length ∧
    buildRequest { client := c, labelMatchers := ms₁, mint := mint, maxt := maxt } =
      buildRequest { client := c, labelMatchers := ms₂, mint := mint, maxt := maxt } ∧
    c.Query lib { client := c, labelMatchers := ms₁, mint := mint, maxt := maxt } =
      c.Query lib { client := c, labelMatchers := ms₂, mint := mint, maxt := maxt } := by
  have hb : buildRequest { client := c, labelMatchers := ms₁, mint := mint, maxt := maxt } =
      buildRequest { client := c, labelMatchers := ms₂, mint := mint, maxt := maxt } := by
    simp only [buildRequest]
    rw [matcherLoop_kind_erasure ms₁ ms₂ h]
  refine ⟨h.length_eq, hb, ?_⟩
  simp only [OpenTSDBClient.Query, hb]

/-- C12 on `[{__name__, equal, foo}, {host, regex, bar.*}]` against the same
list with `host` matched by not-equal: the same request is built. -/
theorem Query_kind_erasure_witness :
    List.Forall₂ (fun a b : Matcher => a.Name = b.Name ∧ a.Value = b.Value ∧
        (a.Name = MetricName → a.Typ = b.Typ))
      fooBarMatchers [⟨.MatchEqual, "__name__", "foo"⟩, ⟨.MatchNotEqual, "host", "bar.*"⟩] ∧
    buildRequest (exampleQuerier fooBarMatchers) =
      buildRequest (exampleQuerier
        [⟨.MatchEqual, "__name__", "foo"⟩, ⟨.MatchNotEqual, "host", "bar.*"⟩]) :=
  ⟨by decide,
    (Query_kind_erasure (exampleLib "" []) exampleClient 100 200 fooBarMatchers
      [⟨.MatchEqual, "__name__", "foo"⟩, ⟨.MatchNotEqual, "host", "bar.*"⟩]
      (by decide)).2.1⟩

/-- C13: `LabelValues(name)` returns no error exactly when `name` is
`__name__`; for `__name__` it returns the one-element list
`["not yet implemented"]` and no error, for every other name the empty list
and the error "Only /api/v1/label/__name__/values is supported". -/
theorem LabelValues_only_metric_name (q : querier) (name : String) :
    ((q.LabelValues name).2 = none ↔ name = MetricName) ∧
    (name = MetricName → q.LabelValues name = (["not yet implemented"], none)) ∧
    (name ≠ MetricName →
      q.LabelValues name = ([], some "Only /api/v1/label/__name__/values is supported")) := by
  by_cases h : name = MetricName
  · simp [querier.LabelValues, h]
  · simp [querier.LabelValues, h]

/-- C13 on the names `__name__` and `host`. -/
theorem LabelValues_only_metric_name_witness :
    ("__name__" = MetricName) ∧ ("host" ≠ MetricName) ∧
    (exampleQuerier []).LabelValues "__name__" = (["not yet implemented"], none) ∧
    (exampleQuerier []).LabelValues "host" =
      ([], some "Only /api/v1/label/__name__/values is supported") :=
  ⟨rfl, by decide,
    (LabelValues_only_metric_name (exampleQuerier []) "__name__").2.1 rfl,
    (LabelValues_only_metric_name (exampleQuerier []) "host").2.2 (by decide)⟩

/-- C14: the samples of every datapoint mapping are non-decreasing in
timestamp, `samples[i].timestamp <= samples[j].timestamp` for `i < j`; hence
the iterator that `Iterator()` builds for any entry has its samples sorted by
ascending timestamp, and the predicate `timestamp >= t` that `Seek` hands to
the binary search is monotone along them. -/
theorem samples_nondecreasing (d : datapoints) (s : OpenTSDBResponse) :
    (∀ (i j : Nat) (a b : sample), i < j →
      (datapoints.samples d)[i]? = some a → (datapoints.samples d)[j]? = some b →
      a.timestamp ≤ b.timestamp) ∧
    s.Iterator.samples = datapoints.samples s.Datapoints ∧
    s.Iterator.samples.Pairwise (fun a b => a.timestamp ≤ b.timestamp) ∧
    (∀ (t : Int) (i j : Nat), i ≤ j → j < s.Iterator.samples.length →
      t ≤ (sampleAt s.Iterator.samples i).timestamp →
      t ≤ (sampleAt s.Iterator.samples j).timestamp) := by
  refine ⟨?_, rfl, samples_pairwise_le s.Datapoints, ?_⟩
  · intro i j a b hij ha hb
    obtain ⟨hi, rfl⟩ := List.getElem?_eq_some.mp ha
    obtain ⟨hj, rfl⟩ := List.getElem?_eq_some.mp hb
    exact (List.pairwise_iff_getElem.mp (samples_pairwise_le d)) i j hi hj hij
  · intro t i j hij hj hti
    exact le_trans hti (sampleAt_mono _ (samples_pairwise_le s.Datapoints) i j hij hj)

/-- C14 on the mapping `{"20": 2, "5": 1, "05": 1}`: the samples come out at
5000, 5000, 20000; the first two have the same timestamp. -/
theorem samples_nondecreasing_witness :
    (datapoints.samples [("20", ⟨2⟩), ("5", ⟨1⟩), ("05", ⟨1⟩)])[0]? = some ⟨5000, ⟨1⟩⟩ ∧
    (datapoints.samples [("20", ⟨2⟩), ("5", ⟨1⟩), ("05", ⟨1⟩)])[1]? = some ⟨5000, ⟨1⟩⟩ ∧
    datapoints.samples [("20", ⟨2⟩), ("5", ⟨1⟩), ("05", ⟨1⟩)] =
      [⟨5000, ⟨1⟩⟩, ⟨5000, ⟨1⟩⟩, ⟨20000, ⟨2⟩⟩] ∧
    (⟨5000, ⟨1⟩⟩ : sample).timestamp ≤ (⟨5000, ⟨1⟩⟩ : sample).timestamp :=
  ⟨by decide, by decide, by decide,
    (samples_nondecreasing [("20", ⟨2⟩), ("5", ⟨1⟩), ("05", ⟨1⟩)] (exampleEntry [])).1 0 1
      ⟨5000, ⟨1⟩⟩ ⟨5000, ⟨1⟩⟩ (by decide) (by decide) (by decide)⟩

/-- C15: request building does not enforce the number of `__name__`
matchers.  Without any, it succeeds with the empty string as metric and one
filter per matcher; with one or more, all of kind equal, it succeeds with the
value of the last one as metric, and the `__name__` matchers produce no
filter. -/
theorem metric_name_matchers_not_enforced (c : OpenTSDBClient) (ms : List Matcher)
    (mint maxt : Int) :
    ((∀ m ∈ ms, m.Name ≠ MetricName) →
      buildRequest { client := c, labelMatchers := ms, mint := mint, maxt := maxt } =
        .ok { Start := mint, End := maxt,
              Queries := [{ Aggregator := "none", Metric := "", MsResolution := true,
                            Filters := ms.map filterOfMatcher }] }) ∧
    (∀ last : Matcher,
      (ms.filter (fun m => m.Name = MetricName)).getLast? = some last →
      (∀ m ∈ ms, m.Name = MetricName → m.Typ = MatchType.MatchEqual) →
      buildRequest { client := c, labelMatchers := ms, mint := mint, maxt := maxt } =
        .ok { Start := mint, End := maxt,
              Queries := [{ Aggregator := "none", Metric := last.Value, MsResolution := true,
                            Filters := (ms.filter (fun m => m.Name ≠ MetricName)).map
                              filterOfMatcher }] }) := by
  constructor
  · intro hnone
    have hgood : ∀ m ∈ ms, m.Name = MetricName → m.Typ = MatchType.MatchEqual :=
      fun m hm hn => absurd hn (hnone m hm)
    have hf1 : ms.filter (fun m => m.Name = MetricName) = [] := by
      rw [List.filter_eq_nil_iff]
      intro m hm
      simpa using hnone m hm
    have hf2 : ms.filter (fun m => m.Name ≠ MetricName) = ms := by
      rw [List.filter_eq_self]
      intro m hm
      simpa using hnone m hm
    simp only [buildRequest]
    rw [matcherLoop_ok ms _ hgood, hf1, hf2]
    rfl
  · intro last hlast hgood
    simp only [buildRequest]
    rw [matcherLoop_ok ms _ hgood, hlast]
    rfl

/-- C15 on a list without `__name__` matcher and on a list with the two
equality matchers `__name__ = a` and `__name__ = b` around a `host` matcher:
the metric is the empty string, respectively `b`, and only `host` is filtered. -/
theorem metric_name_matchers_not_enforced_witness :
    (∀ m ∈ [Matcher.mk .MatchRegexp "host" "h.*"], m.Name ≠ MetricName) ∧
    buildRequest (exampleQuerier [⟨.MatchRegexp, "host", "h.*"⟩]) =
      .ok { Start := 100, End := 200,
            Queries := [{ Aggregator := "none", Metric := "", MsResolution := true,
                          Filters := [⟨"regexp", "host", "h.*", false⟩] }] } ∧
    buildRequest (exampleQuerier [⟨.MatchEqual, "__name__", "a"⟩, ⟨.MatchEqual, "host", "h"⟩,
        ⟨.MatchEqual, "__name__", "b"⟩]) =
      .ok { Start := 100, End := 200,
            Queries := [{ Aggregator := "none", Metric := "b", MsResolution := true,
                          Filters := [⟨"regexp", "host", "h", false⟩] }] } :=
  ⟨by decide,
    (metric_name_matchers_not_enforced exampleClient [⟨.MatchRegexp, "host", "h.*"⟩]
      100 200).1 (by decide),
    (metric_name_matchers_not_enforced exampleClient
      [⟨.MatchEqual, "__name__", "a"⟩, ⟨.MatchEqual, "host", "h"⟩,
        ⟨.MatchEqual, "__name__", "b"⟩] 100 200).2 ⟨.MatchEqual, "__name__", "b"⟩
      (by decide) (by decide)⟩

/-! ### The cursor of the series iterator -/

/-- The binary search loop returns an index between its two bounds, whatever
the predicate. -/
theorem searchLoop_bounds (f : Nat → Bool) :
    ∀ fuel i j, i ≤ j → i ≤ searchLoop f fuel i j ∧ searchLoop f fuel i j ≤ j := by
  intro fuel
  induction fuel with
  | zero => intro i j hij; exact ⟨le_refl _, hij⟩
  | succ fuel ih =>
    intro i j hij
    simp only [searchLoop]
    by_cases hlt : i < j
    · simp only [hlt, if_true]
      split_ifs
      · obtain ⟨h1, h2⟩ := ih ((i + j) / 2 + 1) j (by omega)
        exact ⟨by omega, h2⟩
      · obtain ⟨h1, h2⟩ := ih i ((i + j) / 2) (by omega)
        exact ⟨h1, by omega⟩
    · simp only [hlt, if_false]
      exact ⟨le_refl _, hij⟩

/-- After `Seek` the cursor lies between -1 and `len - 1`, and is not
negative when there are samples; the samples and the error are kept. -/
theorem Seek_cursor_bounds (it : seriesIterator) (t : Int) :
    (it.Seek t).2.samples = it.samples ∧ (it.Seek t).2.err = it.err ∧
    -1 ≤ (it.Seek t).2.cursor ∧ (it.Seek t).2.cursor ≤ (it.samples.length : Int) - 1 ∧
    (it.samples ≠ [] → 0 ≤ (it.Seek t).2.cursor) := by
  have hb := (searchLoop_bounds (fun i => decide ((sampleAt it.samples i).timestamp ≥ t))
    it.samples.length 0 it.samples.length (Nat.zero_le _)).2
  refine ⟨rfl, rfl, ?_, ?_, ?_⟩
  · simp only [seriesIterator.Seek, Search]
    split_ifs <;> omega
  · simp only [seriesIterator.Seek, Search]
    split_ifs <;> omega
  · intro hne
    have hpos : 0 < it.samples.length := List.length_pos.mpr hne
    simp only [seriesIterator.Seek, Search]
    split_ifs <;> omega

/-- `At` returns a sample when the cursor is a valid index. -/
theorem At_isSome_of_inRange (it : seriesIterator)
    (h0 : 0 ≤ it.cursor) (h1 : it.cursor < (it.samples.length : Int)) :
    it.At.isSome = true := by
  have hlt : it.cursor.toNat < it.samples.length := by omega
  simp only [seriesIterator.At, if_pos h0, List.get?_eq_getElem?,
    List.getElem?_eq_getElem hlt]
  rfl

/-- One call of `Next` or `Seek` keeps the samples and keeps the cursor
between -1 and `len - 1`. -/
theorem call_keeps_bounds (it : seriesIterator) (c : iteratorCall)
    (h0 : -1 ≤ it.cursor) (h1 : it.cursor ≤ (it.samples.length : Int) - 1) :
    (it.call c).samples = it.samples ∧ -1 ≤ (it.call c).cursor ∧
    (it.call c).cursor ≤ (it.samples.length : Int) - 1 := by
  cases c with
  | Next =>
    simp only [seriesIterator.call, seriesIterator.Next]
    split_ifs with hlast
    · exact ⟨rfl, h0, h1⟩
    · refine ⟨rfl, ?_, ?_⟩
      · simp only; omega
      · simp only; omega
  | Seek t =>
    obtain ⟨hs, _, hlo, hhi, _⟩ := Seek_cursor_bounds it t
    exact ⟨hs, hlo, hhi⟩

/-- Any sequence of calls keeps the samples and keeps the cursor between -1
and `len - 1`. -/
theorem run_keeps_bounds (cs : List iteratorCall) :
    ∀ it : seriesIterator, -1 ≤ it.cursor → it.cursor ≤ (it.samples.length : Int) - 1 →
      (it.run cs).samples = it.samples ∧ -1 ≤ (it.run cs).cursor ∧
      (it.run cs).cursor ≤ (it.samples.length : Int) - 1 := by
  induction cs with
  | nil => intro it h0 h1; exact ⟨rfl, h0, h1⟩
  | cons c cs ih =>
    intro it h0 h1
    obtain ⟨hs, hlo, hhi⟩ := call_keeps_bounds it c h0 h1
    obtain ⟨hs2, hlo2, hhi2⟩ := ih (it.call c) hlo (by rw [hs]; exact hhi)
    simp only [seriesIterator.run]
    exact ⟨hs2.trans hs, hlo2, by rw [hs] at hhi2; exact hhi2⟩

/-- C16: from the iterator built by `Iterator()` and after any finite
sequence of `Next` and `Seek` calls, the samples are unchanged and
`-1 <= cursor <= len(samples) - 1`; when a further `Next` returns true, and
after a further `Seek` on a non-empty sample list, `0 <= cursor <
len(samples)` and `At` returns a sample. -/
theorem iterator_cursor_in_bounds (s : OpenTSDBResponse) (cs : List iteratorCall) :
    (s.Iterator.run cs).samples = s.Iterator.samples ∧
    -1 ≤ (s.Iterator.run cs).cursor ∧
    (s.Iterator.run cs).cursor ≤ (s.Iterator.samples.length : Int) - 1 ∧
    ((s.Iterator.run cs).Next.1 = true →
      0 ≤ (s.Iterator.run cs).Next.2.cursor ∧
      (s.Iterator.run cs).Next.2.cursor < (s.Iterator.samples.length : Int) ∧
      (s.Iterator.run cs).Next.2.At.isSome = true) ∧
    (∀ t : Int, s.Iterator.samples ≠ [] →
      0 ≤ ((s.Iterator.run cs).Seek t).2.cursor ∧
      ((s.Iterator.run cs).Seek t).2.cursor < (s.Iterator.samples.length : Int) ∧
      ((s.Iterator.run cs).Seek t).2.At.isSome = true) := by
  have hinit0 : -1 ≤ s.Iterator.cursor := le_refl _
  have hinit1 : s.Iterator.cursor ≤ (s.Iterator.samples.length : Int) - 1 := by
    have : s.Iterator.cursor = -1 := rfl
    omega
  obtain ⟨hs, hlo, hhi⟩ := run_keeps_bounds cs s.Iterator hinit0 hinit1
  refine ⟨hs, hlo, hhi, ?_, ?_⟩
  · intro hnext
    have hne : ¬ ((s.Iterator.run cs).cursor =
        ((s.Iterator.run cs).samples.length : Int) - 1) := by
      intro heq
      simp [seriesIterator.Next, heq] at hnext
    have hcur : (s.Iterator.run cs).Next.2.cursor = (s.Iterator.run cs).cursor + 1 := by
      simp only [seriesIterator.Next, if_neg hne]
    have hsam : (s.Iterator.run cs).Next.2.samples = s.Iterator.samples := by
      simp only [seriesIterator.Next, if_neg hne]
      exact hs
    rw [hs] at hne
    have h0 : 0 ≤ (s.Iterator.run cs).Next.2.cursor := by omega
    have h1 : (s.Iterator.run cs).Next.2.cursor < (s.Iterator.samples.length : Int) := by omega
    exact ⟨h0, h1, At_isSome_of_inRange _ h0 (by rw [hsam]; exact h1)⟩
  · intro t hne
    obtain ⟨hs2, _, _, hhi2, hpos⟩ := Seek_cursor_bounds (s.Iterator.run cs) t
    rw [hs] at hhi2 hpos
    have h0 := hpos hne
    have h1 : ((s.Iterator.run cs).Seek t).2.cursor < (s.Iterator.samples.length : Int) := by
      omega
    exact ⟨h0, h1, At_isSome_of_inRange _ h0 (by rw [hs2, hs]; exact h1)⟩

/-- C16 on the iterator of an entry with two datapoints after the calls
`Seek(3000), Seek(0)`: the cursor is at 0, a further `Next` returns true and
`At` then returns the sample at 2000. -/
theorem iterator_cursor_in_bounds_witness :
    ((exampleEntry [("1", ⟨1⟩), ("2", ⟨2⟩)]).Iterator.run [.Seek 3000, .Seek 0]).cursor = 0 ∧
    ((exampleEntry [("1", ⟨1⟩), ("2", ⟨2⟩)]).Iterator.run [.Seek 3000, .Seek 0]).Next.2.At =
      some (2000, ⟨2⟩) ∧
    ((exampleEntry [("1", ⟨1⟩), ("2", ⟨2⟩)]).Iterator.run [.Seek 3000, .Seek 0]).Next.1 = true ∧
    (0 ≤ ((exampleEntry [("1", ⟨1⟩), ("2", ⟨2⟩)]).Iterator.run
        [.Seek 3000, .Seek 0]).Next.2.cursor ∧
      ((exampleEntry [("1", ⟨1⟩), ("2", ⟨2⟩)]).Iterator.run [.Seek 3000, .Seek 0]).Next.2.cursor <
        ((exampleEntry [("1", ⟨1⟩), ("2", ⟨2⟩)]).Iterator.samples.length : Int) ∧
      ((exampleEntry [("1", ⟨1⟩), ("2", ⟨2⟩)]).Iterator.run
        [.Seek 3000, .Seek 0]).Next.2.At.isSome = true) :=
  ⟨by decide, by decide, by decide,
    (iterator_cursor_in_bounds (exampleEntry [("1", ⟨1⟩), ("2", ⟨2⟩)])
      [.Seek 3000, .Seek 0]).2.2.2.1 (by decide)⟩

/-- C17: `Seek(t)` returns true for every iterator and every `t`; on an
iterator without samples it leaves the cursor at -1, where `At` indexes out
of range. -/
theorem Seek_on_empty_samples (it : seriesIterator) (t : Int) :
    (it.Seek t).1 = true ∧
    (it.samples = [] →
      (it.Seek t).2.cursor = -1 ∧ (it.Seek t).2.samples = [] ∧ (it.Seek t).2.At = none) := by
  refine ⟨rfl, ?_⟩
  intro hempty
  have hcur : (it.Seek t).2.cursor = -1 := by
    simp [seriesIterator.Seek, Search, searchLoop, hempty]
  have hsam : (it.Seek t).2.samples = [] := hempty
  refine ⟨hcur, hsam, ?_⟩
  simp [seriesIterator.At, hcur]

/-- C17 on the iterator that `Iterator()` builds for an entry without
datapoints, on `Seek(5)`. -/
theorem Seek_on_empty_samples_witness :
    (exampleEntry []).Iterator.samples = [] ∧
    ((exampleEntry []).Iterator.Seek 5).1 = true ∧
    (((exampleEntry []).Iterator.Seek 5).2.cursor = -1 ∧
      ((exampleEntry []).Iterator.Seek 5).2.samples = [] ∧
      ((exampleEntry []).Iterator.Seek 5).2.At = none) :=
  ⟨by decide, by decide, (Seek_on_empty_samples (exampleEntry []).Iterator 5).2 (by decide)⟩

/-- C18: the state after `Seek(t)` does not depend on the cursor before it;
a second `Seek(t)` changes nothing; `Seek` keeps the samples and the stored
error; and `Seek` can move the cursor back to an earlier sample (from index
2 to index 0 on the samples at 10, 20, 30). -/
theorem Seek_position_independent_idempotent (s : List sample) (t : Int) (c₁ c₂ : Int)
    (e : Option error) :
    ((seriesIterator.mk s c₁ e).Seek t).2.cursor = ((seriesIterator.mk s c₂ e).Seek t).2.cursor ∧
    (seriesIterator.mk s c₁ e).Seek t = (seriesIterator.mk s c₂ e).Seek t ∧
    ((seriesIterator.mk s c₁ e).Seek t).2.Seek t = (seriesIterator.mk s c₁ e).Seek t ∧
    ((seriesIterator.mk s c₁ e).Seek t).2.samples = s ∧
    ((seriesIterator.mk s c₁ e).Seek t).2.err = e ∧
    (iterator102030.cursor = 2 ∧ (iterator102030.Seek 5).2.cursor = 0) := by
  refine ⟨rfl, rfl, rfl, rfl, rfl, by decide, by decide⟩

/-! ### The label set of a response entry -/

/-- The comparison of character sequences is asymmetric. -/
theorem lessChars_asymm :
    ∀ a b : List Char, lessChars a b = true → lessChars b a = false := by
  intro a
  induction a with
  | nil => intro b _; cases b <;> rfl
  | cons x as ih =>
    intro b h
    cases b with
    | nil => simp [lessChars] at h
    | cons y bs =>
      simp only [lessChars] at h ⊢
      split_ifs at h ⊢
      all_goals first | omega | rfl | exact ih _ h

/-- The order "not after" on character sequences is transitive. -/
theorem lessChars_le_trans :
    ∀ a b c : List Char,
      lessChars b a = false → lessChars c b = false → lessChars c a = false := by
  intro a
  induction a with
  | nil => intro b c _ _; cases c <;> rfl
  | cons x as ih =>
    intro b c h1 h2
    cases b with
    | nil => simp [lessChars] at h1
    | cons y bs =>
      cases c with
      | nil => simp [lessChars] at h2
      | cons z cs =>
        simp only [lessChars] at h1 h2 ⊢
        split_ifs at h1 h2 ⊢
        all_goals first | omega | rfl | exact ih _ _ h1 h2

/-- Two character sequences of which neither is before the other are equal. -/
theorem lessChars_connex :
    ∀ a b : List Char, lessChars a b = false → lessChars b a = false → a = b := by
  intro a
  induction a with
  | nil =>
    intro b h _
    cases b with
    | nil => rfl
    | cons y bs => simp [lessChars] at h
  | cons x as ih =>
    intro b h1 h2
    cases b with
    | nil => simp [lessChars] at h2
    | cons y bs =>
      simp only [lessChars] at h1 h2
      have hxy : x.toNat = y.toNat := by
        split_ifs at h1 h2
        omega
      have hrest1 : lessChars as bs = false := by
        split_ifs at h1 h2
        exact h1
      have hrest2 : lessChars bs as = false := by
        split_ifs at h1 h2
        exact h2
      have hchar : x = y := Char.ext (UInt32.ext hxy)
      rw [hchar, ih bs hrest1 hrest2]

/-- The labels of the tags are those of the entries of the mapping, rearranged. -/
theorem labels_perm (t : tags) : (tags.labels t).Perm (t.map labelOfTag) :=
  sortSlice_perm _ _

/-- The labels of the tags are in ascending order of name: no label has a
name before that of an earlier one. -/
theorem labels_pairwise_le (t : tags) :
    (tags.labels t).Pairwise (fun a b => stringLess b.Name a.Name = false) := by
  haveI : IsTotal Label (fun a b => stringLess b.Name a.Name = false) :=
    ⟨fun a b => by
      cases h : stringLess b.Name a.Name with
      | false => exact Or.inl rfl
      | true => exact Or.inr (lessChars_asymm _ _ h)⟩
  haveI : IsTrans Label (fun a b => stringLess b.Name a.Name = false) :=
    ⟨fun a b c h1 h2 => lessChars_le_trans _ _ _ h1 h2⟩
  exact List.sorted_insertionSort
    (fun a b : Label => stringLess b.Name a.Name = false) (t.map labelOfTag)

/-- C19: for every entry with `k` tags and metric `m`, `Labels()` has `k + 1`
labels; its last one is `{__name__, m}`, whatever the tag names are; its first
`k` are the labels of the tags, one per tag with name and value kept, in
ascending order of name (strictly ascending, the keys of a mapping being
distinct). -/
theorem Labels_tags_then_metric_name (s : OpenTSDBResponse) :
    s.Labels.length = s.Tags.length + 1 ∧
    s.Labels.getLast? = some ⟨MetricName, s.Metric⟩ ∧
    s.Labels = s.Labels.take s.Tags.length ++ [⟨MetricName, s.Metric⟩] ∧
    (s.Labels.take s.Tags.length).Perm (s.Tags.map labelOfTag) ∧
    (s.Labels.take s.Tags.length).Pairwise (fun a b => stringLess b.Name a.Name = false) ∧
    (mapKeysNodup s.Tags →
      (s.Labels.take s.Tags.length).Pairwise (fun a b => stringLess a.Name b.Name = true)) := by
  have hperm := labels_perm s.Tags
  have hlen : (tags.labels s.Tags).length = s.Tags.length := by
    rw [hperm.length_eq, List.length_map]
  have htake : s.Labels.take s.Tags.length = tags.labels s.Tags := by
    unfold OpenTSDBResponse.Labels
    rw [← hlen, List.take_left']
    rfl
  have hle := labels_pairwise_le s.Tags
  rw [htake]
  refine ⟨?_, ?_, rfl, hperm, hle, ?_⟩
  · unfold OpenTSDBResponse.Labels
    rw [List.length_append, hlen]
    rfl
  · unfold OpenTSDBResponse.Labels
    simp
  · intro hnd
    have hnames : ((tags.labels s.Tags).map (fun l => l.Name)).Nodup := by
      have hp := hperm.map (fun l : Label => l.Name)
      rw [hp.nodup_iff, List.map_map]
      exact hnd
    have hne : (tags.labels s.Tags).Pairwise (fun a b => a.Name ≠ b.Name) :=
      List.pairwise_map.mp hnames
    refine (hle.and hne).imp ?_
    intro a b hab
    obtain ⟨h1, h2⟩ := hab
    cases h : stringLess a.Name b.Name with
    | true => rfl
    | false => exact absurd (String.ext (lessChars_connex _ _ h h1)) h2

/-- C19 on the tags `{zone: z, Host: h, host: a}` and the metric `m`: four
labels, `Host`, `host`, `zone` in that order and then `__name__`. -/
theorem Labels_tags_then_metric_name_witness :
    mapKeysNodup [("zone", "z"), ("Host", "h"), ("host", "a")] ∧
    (OpenTSDBResponse.mk [("zone", "z"), ("Host", "h"), ("host", "a")] "m" []).Labels =
      [⟨"Host", "h"⟩, ⟨"host", "a"⟩, ⟨"zone", "z"⟩, ⟨"__name__", "m"⟩] ∧
    ((OpenTSDBResponse.mk [("zone", "z"), ("Host", "h"), ("host", "a")] "m" []).Labels.take
      (OpenTSDBResponse.mk [("zone", "z"), ("Host", "h"), ("host", "a")] "m" []).Tags.length
      ).Pairwise (fun a b => stringLess a.Name b.Name = true) :=
  ⟨by decide, by decide,
    (Labels_tags_then_metric_name
      (OpenTSDBResponse.mk [("zone", "z"), ("Host", "h"), ("host", "a")] "m" [])).2.2.2.2.2
      (by decide)⟩

end OpenTSDB
